import Mathlib

/-!
# lxqt-archiver: navigation, projection and dispatch layer of `MainWindow`

Shallow embedding of `src/src/mainwindow.cpp`.  The window is a record of the
fields the member functions read and write; every member function is a pure
function on that record.  The archiver engine (`archiver.h`, `archiveritem.h`)
is not among the sources: its query results are parameters (`Archiver`), and
the calls issued to it are appended to a log instead of being executed.
A member function that dereferences a pointer returns `none` when the pointer
is null.
-/

namespace LxqtArchiver

/-! ## Engine-side data (declarations the window code relies on) -/

/-- Engine record behind an archive entry (`FileData` of the archiver core);
the window only passes pointers to it around. -/
structure FileData where
  original_path : String
  deriving DecidableEq, Repr

/-- Modelled from the spec: `ArchiverItem` (archiveritem.h is not among the
sources), one node of the archive tree with the accessors `name()`,
`fullPath()`, `originalPath()`, `isDir()`, `isEncrypted()`, `data()` and
`children()` that mainwindow.cpp calls.  A `const ArchiverItem*` is a value of
this type (`Option` when it may be null). -/
inductive ArchiverItem where
  | mk (name fullPath originalPath : String) (isDir isEncrypted : Bool)
      (data : Option FileData) (children : List ArchiverItem)
  deriving Repr

namespace ArchiverItem

def name : ArchiverItem → String
  | mk n _ _ _ _ _ _ => n

def fullPath : ArchiverItem → String
  | mk _ p _ _ _ _ _ => p

def originalPath : ArchiverItem → String
  | mk _ _ o _ _ _ _ => o

def isDir : ArchiverItem → Bool
  | mk _ _ _ d _ _ _ => d

def isEncrypted : ArchiverItem → Bool
  | mk _ _ _ _ e _ _ => e

def data : ArchiverItem → Option FileData
  | mk _ _ _ _ _ d _ => d

def children : ArchiverItem → List ArchiverItem
  | mk _ _ _ _ _ _ cs => cs

end ArchiverItem

mutual
/-- Pointer comparison `a == b` on tree nodes, as decidable equality. -/
def ArchiverItem.decEq : (a b : ArchiverItem) → Decidable (a = b)
  | .mk n p o d e fd cs, .mk n2 p2 o2 d2 e2 fd2 cs2 =>
    if h : n = n2 ∧ p = p2 ∧ o = o2 ∧ d = d2 ∧ e = e2 ∧ fd = fd2 then
      match ArchiverItem.decEqList cs cs2 with
      | isTrue hc => isTrue (by
          obtain ⟨h1, h2, h3, h4, h5, h6⟩ := h
          subst h1 h2 h3 h4 h5 h6 hc
          rfl)
      | isFalse hc => isFalse (by
          intro hab
          injection hab
          contradiction)
    else isFalse (by
      intro hab
      injection hab with a1 a2 a3 a4 a5 a6 a7
      exact h ⟨a1, a2, a3, a4, a5, a6⟩)
def ArchiverItem.decEqList : (as bs : List ArchiverItem) → Decidable (as = bs)
  | [], [] => isTrue rfl
  | [], _ :: _ => isFalse (by intro h; cases h)
  | _ :: _, [] => isFalse (by intro h; cases h)
  | a :: as, b :: bs =>
    match ArchiverItem.decEq a b with
    | isTrue hab =>
      match ArchiverItem.decEqList as bs with
      | isTrue hl => isTrue (by subst hab hl; rfl)
      | isFalse hl => isFalse (by
          intro h
          injection h
          contradiction)
    | isFalse hab => isFalse (by
        intro h
        injection h
        contradiction)
end

instance : DecidableEq ArchiverItem := ArchiverItem.decEq

/-- Modelled from the spec: the `Archiver` queries (archiver.h is not among
the sources) that mainwindow.cpp reads: `isLoaded()`, `isBusy()`,
`dirTreeRoot()`, `dirByPath(path)`, `parentDir(item)`, `flatFileList()` and the
base name of `currentArchivePath()`.  Their results are arbitrary: nothing is
assumed about how the engine computes them. -/
structure Archiver where
  isLoaded : Bool
  isBusy : Bool
  dirTreeRoot : Option ArchiverItem
  dirByPath : String → Option ArchiverItem
  parentDir : ArchiverItem → Option ArchiverItem
  flatFileList : List ArchiverItem
  archiveBaseName : String

/-- The `FrAction` kinds named in the switch of `onActionStarted` and
`onActionFinished`; `FR_ACTION_NONE` stands for every kind that reaches
`default:`. -/
inductive FrAction where
  | FR_ACTION_NONE
  | FR_ACTION_CREATING_NEW_ARCHIVE
  | FR_ACTION_LOADING_ARCHIVE
  | FR_ACTION_LISTING_CONTENT
  | FR_ACTION_DELETING_FILES
  | FR_ACTION_TESTING_ARCHIVE
  | FR_ACTION_GETTING_FILE_LIST
  | FR_ACTION_COPYING_FILES_FROM_REMOTE
  | FR_ACTION_ADDING_FILES
  | FR_ACTION_EXTRACTING_FILES
  | FR_ACTION_COPYING_FILES_TO_REMOTE
  | FR_ACTION_CREATING_ARCHIVE
  | FR_ACTION_SAVING_REMOTE_ARCHIVE
  deriving DecidableEq, Repr

/-- The `ArchiverError` handed to `onActionFinished`: `hasError()` and
`message()`. -/
structure ArchiverError where
  hasError : Bool
  message : String
  deriving DecidableEq, Repr

/-- A call made on `archiver_`.  The arguments that mainwindow.cpp always passes
as constants (`false`, `nullptr`, `FR_COMPRESSION_NORMAL`, `0`) are left out. -/
inductive EngineCall where
  | createNewArchive (url : String)
  | openArchive (uri : String)
  | addFiles (srcPaths : List String) (baseDir : String)
  | addDirectory (path : String) (baseDir : String)
  | removeFiles (files : List FileData)
  | extractAll (destUri : String)
  | extractFiles (files : List FileData) (destDir : String) (baseDir : String)
  | testArchiveIntegrity
  | reloadArchive
  deriving DecidableEq, Repr

/-- A modal message box shown to the user. -/
inductive Dialog where
  | critical (title message : String)
  | information (title message : String)
  deriving DecidableEq, Repr

/-! ## Window state -/

/-- The two values of `MainWindow::ViewMode`. -/
inductive ViewMode where
  | DirTree
  | FlatList
  deriving DecidableEq, Repr

/-- One row of the file-list model: the text of the first column and the
`ArchiverItem` pointer stored there under `ArchiverItemRole`, and the text of
the last column.  The description, size and time columns are display strings
computed from the item by the toolkit and are not kept. -/
structure FileListRow where
  text : String
  item : ArchiverItem
  encrypted : String
  deriving DecidableEq, Repr

/-- A `QStandardItem` of the directory-tree model: its text, the `ArchiverItem`
pointer stored under `ArchiverItemRole`, and its child rows. -/
inductive DirTreeItem where
  | mk (text : String) (item : ArchiverItem) (rows : List DirTreeItem)
  deriving Repr

namespace DirTreeItem

def text : DirTreeItem → String
  | mk t _ _ => t

def item : DirTreeItem → ArchiverItem
  | mk _ i _ => i

def rows : DirTreeItem → List DirTreeItem
  | mk _ _ rs => rs

/-- The member `setText` of a tree item. -/
def setText : DirTreeItem → String → DirTreeItem
  | mk _ i rs, t => mk t i rs

end DirTreeItem

/-- The fields of `MainWindow` and of the widgets it owns that the member
functions below read or write. -/
structure MainWindow where
  /-- Field `viewMode_`. -/
  viewMode_ : ViewMode
  /-- Field `currentDirPath_`. -/
  currentDirPath_ : String
  /-- Field `currentDirItem_` (null is `none`). -/
  currentDirItem_ : Option ArchiverItem
  /-- Rows of `proxyModel_->sourceModel()`; `none` when the proxy has no source model. -/
  fileListModel : Option (List FileListRow)
  /-- Rows selected in `fileListView`, as row numbers of the source model. -/
  fileListSelection : List Nat
  /-- Top-level rows of `dirTreeView->model()`; `none` when the view has no model. -/
  dirTreeModel : Option (List DirTreeItem)
  /-- Indexes selected in `dirTreeView`, each the row numbers from the top. -/
  dirTreeSelection : List (List Nat)
  /-- Whether `dirTreeView` is visible. -/
  dirTreeVisible : Bool
  /-- Whether `actionDirTree` is checked. -/
  actionDirTreeChecked : Bool
  /-- Text of `currentPathEdit_`. -/
  currentPathEditText : String
  /-- Message of the status bar. -/
  statusBarMessage : String
  /-- Whether the wait cursor is set. -/
  waitCursor : Bool
  /-- Whether `progressBar_` is visible. -/
  progressBarVisible : Bool
  actionCreateNewEnabled : Bool
  actionOpenEnabled : Bool
  currentPathEditEnabled : Bool
  fileListViewEnabled : Bool
  dirTreeViewEnabled : Bool
  actionSelectAllEnabled : Bool
  actionAddFilesEnabled : Bool
  actionAddFolderEnabled : Bool
  actionDeleteEnabled : Bool
  actionExtractEnabled : Bool
  /-- Calls made on `archiver_` so far, oldest first. -/
  engineCalls : List EngineCall
  /-- Message boxes shown so far, oldest first. -/
  dialogs : List Dialog
  deriving Repr

namespace MainWindow

/-! ## Member functions -/

/-- `MainWindow::updateUiStates`. -/
def updateUiStates (a : Archiver) (w : MainWindow) : MainWindow :=
  let hasArchive := a.isLoaded
  let inProgress := a.isBusy
  let canLoad := !hasArchive || !inProgress
  let canEdit := hasArchive && !inProgress
  { w with
    actionCreateNewEnabled := canLoad
    actionOpenEnabled := canLoad
    currentPathEditEnabled := canEdit
    fileListViewEnabled := canEdit
    dirTreeViewEnabled := canEdit
    actionSelectAllEnabled := canEdit
    actionAddFilesEnabled := canEdit
    actionAddFolderEnabled := canEdit
    actionDeleteEnabled := canEdit
    actionExtractEnabled := canEdit }

/-- `MainWindow::setBusyState`. -/
def setBusyState (a : Archiver) (w : MainWindow) (busy : Bool) : MainWindow :=
  updateUiStates a { w with waitCursor := busy }

/-- The window right after the constructor `MainWindow::MainWindow`: directory
tree mode, no current directory, no models, nothing issued or shown, then
`updateUiStates()`.  Whether `actionDirTree` starts checked comes from the
window form, which is not among the sources, and is an argument. -/
def init (a : Archiver) (dirTreeChecked : Bool) : MainWindow :=
  updateUiStates a
    { viewMode_ := ViewMode.DirTree
      currentDirPath_ := ""
      currentDirItem_ := none
      fileListModel := none
      fileListSelection := []
      dirTreeModel := none
      dirTreeSelection := []
      dirTreeVisible := dirTreeChecked
      actionDirTreeChecked := dirTreeChecked
      currentPathEditText := ""
      statusBarMessage := ""
      waitCursor := false
      progressBarVisible := false
      actionCreateNewEnabled := true
      actionOpenEnabled := true
      currentPathEditEnabled := true
      fileListViewEnabled := true
      dirTreeViewEnabled := true
      actionSelectAllEnabled := true
      actionAddFilesEnabled := true
      actionAddFolderEnabled := true
      actionDeleteEnabled := true
      actionExtractEnabled := true
      engineCalls := []
      dialogs := [] }

/-- `MainWindow::createFileListRow`: the first column is labelled with the full
path in flat-list mode and with the name otherwise, and stores the item. -/
def createFileListRow (w : MainWindow) (file : ArchiverItem) : FileListRow :=
  { text := if w.viewMode_ = ViewMode.FlatList then file.fullPath else file.name
    item := file
    encrypted := if file.isEncrypted then "*" else "" }

/-- `MainWindow::showFileList`: a new model with an optional ".." row for the
parent of `currentDirItem_` (directory-tree mode only) followed by one row per
entry of `files`, installed as the source model of the proxy. -/
def showFileList (a : Archiver) (w : MainWindow) (files : List ArchiverItem) : MainWindow :=
  let parentRows : List FileListRow :=
    if w.viewMode_ = ViewMode.DirTree then
      match w.currentDirItem_ with
      | some cur =>
        match a.parentDir cur with
        | some parent => [{ createFileListRow w parent with text := ".." }]
        | none => []
      | none => []
    else []
  let model := parentRows ++ files.map (createFileListRow w)
  { w with
    fileListModel := some model
    fileListSelection := []
    statusBarMessage := toString files.length ++ " files" }

/-- `MainWindow::showFlatFileList`. -/
def showFlatFileList (a : Archiver) (w : MainWindow) : MainWindow :=
  showFileList a w a.flatFileList

/-- `MainWindow::showCurrentDirList`. -/
def showCurrentDirList (a : Archiver) (w : MainWindow) : MainWindow :=
  let dir := match w.currentDirItem_ with
    | some d => some d
    | none => a.dirTreeRoot
  match dir with
  | some d => showFileList a w d.children
  | none => w

/-- `MainWindow::itemFromIndex` on the file list: the item stored in the first
column of the row, null for an invalid index. -/
def itemFromIndex (w : MainWindow) (row : Nat) : Option ArchiverItem :=
  match w.fileListModel with
  | some rows => rows[row]?.map FileListRow.item
  | none => none

/-- `MainWindow::selectedFiles`: the `data()` of every selected row whose item
and data are both non-null, in selection order. -/
def selectedFiles (w : MainWindow) : List FileData :=
  w.fileListSelection.filterMap fun idx =>
    match itemFromIndex w idx with
    | some item => item.data
    | none => none

mutual
/-- The tree item that `MainWindow::buildDirTree` creates for a non-null
`root`: labelled with its name, carrying the pointer, with one child item per
child directory. -/
def buildDirTreeItem : ArchiverItem → DirTreeItem
  | .mk n p o d e fd cs => .mk n (.mk n p o d e fd cs) (buildDirTreeRows cs)
/-- The loop of `MainWindow::buildDirTree` over `root->children()`. -/
def buildDirTreeRows : List ArchiverItem → List DirTreeItem
  | [] => []
  | c :: cs =>
    if c.isDir then buildDirTreeItem c :: buildDirTreeRows cs else buildDirTreeRows cs
end

/-- `MainWindow::buildDirTree(parent, root)`: the rows of `parent` afterwards;
nothing is appended for a null `root`. -/
def buildDirTree (parentRows : List DirTreeItem) (root : Option ArchiverItem) :
    List DirTreeItem :=
  match root with
  | some r => parentRows ++ [buildDirTreeItem r]
  | none => parentRows

/-- `MainWindow::updateDirTree`: a new tree model built from `dirTreeRoot()`,
whose first top-level item is then relabelled with the archive base name.
`model->item(0, 0)` is null when nothing was built, and `rootItem->setText`
dereferences it: the result is `none` then. -/
def updateDirTree (a : Archiver) (w : MainWindow) : Option MainWindow :=
  let treeRoot := a.dirTreeRoot
  match buildDirTree [] treeRoot with
  | [] => none
  | rootItem :: rest =>
    some { w with
      dirTreeModel := some (rootItem.setText a.archiveBaseName :: rest)
      dirTreeSelection := [] }

mutual
/-- `MainWindow::indexFromItem(parent, item)` for a valid `parent` index at
position `parentPath`: the index of the first descendant row, depth first,
whose stored pointer equals `item`. -/
def indexFromItem (parentPath : List Nat) : DirTreeItem → ArchiverItem → Option (List Nat)
  | .mk _ _ rows, item => indexFromItemRows parentPath 0 rows item
/-- The loop of `MainWindow::indexFromItem` from row `row` on. -/
def indexFromItemRows (parentPath : List Nat) (row : Nat) :
    List DirTreeItem → ArchiverItem → Option (List Nat)
  | [], _ => none
  | r :: rs, item =>
    if r.item = item then some (parentPath ++ [row])
    else
      match indexFromItem (parentPath ++ [row]) r item with
      | some idx => some idx
      | none => indexFromItemRows parentPath (row + 1) rs item
end

/-- `MainWindow::chdir(const ArchiverItem*)`: dereferences `dir` (`none` for a
null pointer), records its full path and the pointer, shows the list for the
view mode and adds the matching tree row, searched below `index(0, 0)`, to the
tree selection.  The `selectionChanged` signal that the toolkit may deliver for
that last step is a separate event and is not replayed here. -/
def chdir (a : Archiver) (w : MainWindow) (dir : Option ArchiverItem) : Option MainWindow :=
  match dir with
  | none => none
  | some d =>
    let w1 := { w with
      currentDirPath_ := d.fullPath
      currentPathEditText := d.fullPath
      currentDirItem_ := some d }
    let w2 := if w1.viewMode_ = ViewMode.DirTree then showCurrentDirList a w1
      else showFlatFileList a w1
    match w2.dirTreeModel with
    | some (top :: _) =>
      match indexFromItem [0] top d with
      | some idx =>
        some { w2 with
          dirTreeSelection :=
            if idx ∈ w2.dirTreeSelection then w2.dirTreeSelection
            else w2.dirTreeSelection ++ [idx] }
      | none => some w2
    | _ => some w2

/-- `MainWindow::chdir(std::string)`. -/
def chdir_string (a : Archiver) (w : MainWindow) (dirPath : String) : Option MainWindow :=
  if dirPath ≠ w.currentDirPath_ then
    let dir := a.dirByPath w.currentDirPath_
    match dir with
    | some d => chdir a w (some d)
    | none => some w
  else some w

/-- `MainWindow::setViewMode`. -/
def setViewMode (a : Archiver) (w : MainWindow) (viewMode : ViewMode) : MainWindow :=
  if w.viewMode_ ≠ viewMode then
    let w1 := { w with viewMode_ := viewMode }
    match viewMode with
    | ViewMode.DirTree =>
      showCurrentDirList a { w1 with dirTreeVisible := w1.actionDirTreeChecked }
    | ViewMode.FlatList =>
      showFlatFileList a { w1 with dirTreeVisible := false }
  else w

/-- `MainWindow::onInvalidateContent`: the proxy loses its source model, which
is deleted, and `currentDirItem_` becomes null. -/
def onInvalidateContent (w : MainWindow) : MainWindow :=
  { w with
    fileListModel := none
    fileListSelection := []
    currentDirItem_ := none }

/-- The `FR_ACTION_LISTING_CONTENT` branch of `MainWindow::onActionFinished`
(shared with the two archive-creating kinds): `updateDirTree()`, then
`currentDirItem_` becomes `dirByPath(currentDirPath_)`, or `dirTreeRoot()` when
that is null, then `chdir(currentDirItem_)`. -/
def contentListed (a : Archiver) (w : MainWindow) : Option MainWindow :=
  match updateDirTree a w with
  | none => none
  | some w2 =>
    let found := a.dirByPath w2.currentDirPath_
    let cur := match found with
      | some d => some d
      | none => a.dirTreeRoot
    chdir a { w2 with currentDirItem_ := cur } cur

/-- The `switch(action)` of `MainWindow::onActionFinished`. -/
def finishedSwitch (a : Archiver) (w : MainWindow) (action : FrAction)
    (err : ArchiverError) : Option MainWindow :=
  match action with
  | FrAction.FR_ACTION_LOADING_ARCHIVE => some w
  | FrAction.FR_ACTION_CREATING_NEW_ARCHIVE
  | FrAction.FR_ACTION_CREATING_ARCHIVE
  | FrAction.FR_ACTION_LISTING_CONTENT => contentListed a w
  | FrAction.FR_ACTION_DELETING_FILES =>
    some { w with engineCalls := w.engineCalls ++ [EngineCall.reloadArchive] }
  | FrAction.FR_ACTION_TESTING_ARCHIVE =>
    if !err.hasError then
      some { w with
        dialogs := w.dialogs ++ [Dialog.information "Success" "No errors are found."] }
    else some w
  | FrAction.FR_ACTION_ADDING_FILES =>
    some { w with engineCalls := w.engineCalls ++ [EngineCall.reloadArchive] }
  | _ => some w

/-- The closing `if(err.hasError())` of `MainWindow::onActionFinished`: the
engine message in a critical message box. -/
def showError (w : MainWindow) (err : ArchiverError) : MainWindow :=
  if err.hasError then
    { w with dialogs := w.dialogs ++ [Dialog.critical "Error" err.message] }
  else w

/-- `MainWindow::onActionFinished`: busy state off, progress bar hidden, the
switch on the action kind, then the error box. -/
def onActionFinished (a : Archiver) (w : MainWindow) (action : FrAction)
    (err : ArchiverError) : Option MainWindow :=
  let w1 := { setBusyState a w false with progressBarVisible := false }
  match finishedSwitch a w1 action err with
  | none => none
  | some w3 => some (showError w3 err)

/-! ## Command handlers

The answer of each chooser or message box is an argument: a `QUrl` is its
encoded string, empty when the chooser was cancelled. -/

/-- `MainWindow::on_actionCreateNew_triggered`; `url` is what `getSaveFileUrl`
returned. -/
def on_actionCreateNew_triggered (w : MainWindow) (url : String) : MainWindow :=
  if !url.isEmpty then
    { w with engineCalls := w.engineCalls ++ [EngineCall.createNewArchive url] }
  else w

/-- `MainWindow::on_actionOpen_triggered`; `url` is what `getOpenFileUrl`
returned. -/
def on_actionOpen_triggered (w : MainWindow) (url : String) : MainWindow :=
  if !url.isEmpty then
    { w with engineCalls := w.engineCalls ++ [EngineCall.openArchive url] }
  else w

/-- The `baseDir` chosen by the two add handlers. -/
def addBaseDir (w : MainWindow) : String :=
  match w.viewMode_, w.currentDirItem_ with
  | ViewMode.DirTree, some cur => cur.originalPath
  | _, _ => "/"

/-- `MainWindow::on_actionAddFiles_triggered`; `fileUrls` is what
`getOpenFileUrls` returned. -/
def on_actionAddFiles_triggered (w : MainWindow) (fileUrls : List String) : MainWindow :=
  if !fileUrls.isEmpty then
    { w with engineCalls := w.engineCalls ++ [EngineCall.addFiles fileUrls (addBaseDir w)] }
  else w

/-- `MainWindow::on_actionAddFolder_triggered`; `dirUrl` is what
`getExistingDirectoryUrl` returned. -/
def on_actionAddFolder_triggered (w : MainWindow) (dirUrl : String) : MainWindow :=
  if !dirUrl.isEmpty then
    { w with engineCalls := w.engineCalls ++ [EngineCall.addDirectory dirUrl (addBaseDir w)] }
  else w

/-- `MainWindow::on_actionDelete_triggered`; `confirmed` tells whether the
question box was answered with Yes. -/
def on_actionDelete_triggered (w : MainWindow) (confirmed : Bool) : MainWindow :=
  if !confirmed then w
  else
    let files := selectedFiles w
    if !files.isEmpty then
      { w with engineCalls := w.engineCalls ++ [EngineCall.removeFiles files] }
    else w

/-- The local `baseDir` that `on_actionExtract_triggered` computes from
`currentDirPath_` (a '/' is appended when the path is empty or does not end
with one). -/
def extractBaseDir (currentDirPath : String) : String :=
  if currentDirPath.isEmpty || currentDirPath.back ≠ '/' then currentDirPath.push '/'
  else currentDirPath

/-- `MainWindow::on_actionExtract_triggered`; `dirUrl` is what
`getExistingDirectoryUrl` returned.  The third argument of `extractFiles` is
`currentDirPath_.c_str()`, as in the source, not the local `baseDir`. -/
def on_actionExtract_triggered (w : MainWindow) (dirUrl : String) : MainWindow :=
  if !dirUrl.isEmpty then
    let files := selectedFiles w
    if files.isEmpty then
      { w with engineCalls := w.engineCalls ++ [EngineCall.extractAll dirUrl] }
    else
      let destDir := dirUrl
      let _baseDir := extractBaseDir w.currentDirPath_
      { w with
        engineCalls := w.engineCalls ++
          [EngineCall.extractFiles files destDir w.currentDirPath_] }
  else w

/-- `MainWindow::on_actionTest_triggered`. -/
def on_actionTest_triggered (a : Archiver) (w : MainWindow) : MainWindow :=
  if a.isLoaded then
    { w with engineCalls := w.engineCalls ++ [EngineCall.testArchiveIntegrity] }
  else w

/-- `MainWindow::on_actionReload_triggered`. -/
def on_actionReload_triggered (a : Archiver) (w : MainWindow) : MainWindow :=
  if a.isLoaded then
    { w with engineCalls := w.engineCalls ++ [EngineCall.reloadArchive] }
  else w

/-- A user command of the window together with the answers the user gives to
the dialogs its handler opens. -/
inductive Command where
  | createNew (url : String)
  | openArchive (url : String)
  | addFiles (fileUrls : List String)
  | addFolder (dirUrl : String)
  | delete (confirmed : Bool)
  | extract (dirUrl : String)
  | testIntegrity
  | reload
  deriving DecidableEq, Repr

/-- The slot that the `triggered` signal of each action is connected to. -/
def trigger (a : Archiver) (w : MainWindow) : Command → MainWindow
  | Command.createNew url => on_actionCreateNew_triggered w url
  | Command.openArchive url => on_actionOpen_triggered w url
  | Command.addFiles fileUrls => on_actionAddFiles_triggered w fileUrls
  | Command.addFolder dirUrl => on_actionAddFolder_triggered w dirUrl
  | Command.delete confirmed => on_actionDelete_triggered w confirmed
  | Command.extract dirUrl => on_actionExtract_triggered w dirUrl
  | Command.testIntegrity => on_actionTest_triggered a w
  | Command.reload => on_actionReload_triggered a w

end MainWindow

/-! ## Sequences of navigation events -/

/-- An event that reaches the navigation state of the window, with the archiver
answers in force when it is delivered (they change from one listing to the
next). -/
inductive NavEvent where
  | chdirItem (a : Archiver) (dir : ArchiverItem)
  | chdirPath (a : Archiver) (dirPath : String)
  | setViewMode (a : Archiver) (viewMode : ViewMode)
  | invalidateContent
  | actionFinished (a : Archiver) (action : FrAction) (err : ArchiverError)

/-- The member function that an event runs; `none` when it dereferences a null
pointer. -/
def MainWindow.step (w : MainWindow) : NavEvent → Option MainWindow
  | NavEvent.chdirItem a dir => MainWindow.chdir a w (some dir)
  | NavEvent.chdirPath a dirPath => MainWindow.chdir_string a w dirPath
  | NavEvent.setViewMode a viewMode => some (MainWindow.setViewMode a w viewMode)
  | NavEvent.invalidateContent => some (MainWindow.onInvalidateContent w)
  | NavEvent.actionFinished a action err => MainWindow.onActionFinished a w action err

/-- The window after a sequence of events, oldest first. -/
def MainWindow.run (w : MainWindow) : List NavEvent → Option MainWindow
  | [] => some w
  | e :: es =>
    match MainWindow.step w e with
    | some w2 => MainWindow.run w2 es
    | none => none

mutual
/-- Every `ArchiverItem` pointer stored in a tree item and in the rows below
it, depth first. -/
def DirTreeItem.storedBelow : DirTreeItem → List ArchiverItem
  | DirTreeItem.mk _ i rs => i :: DirTreeItem.storedItems rs
/-- Every `ArchiverItem` pointer stored in the rows of a directory-tree model,
depth first. -/
def DirTreeItem.storedItems : List DirTreeItem → List ArchiverItem
  | [] => []
  | r :: rest => DirTreeItem.storedBelow r ++ DirTreeItem.storedItems rest
end

/-- Every `ArchiverItem` pointer that the window holds: `currentDirItem_`, the
rows of the file-list model and the rows of the directory-tree model. -/
def MainWindow.storedItems (w : MainWindow) : List ArchiverItem :=
  w.currentDirItem_.toList ++ (w.fileListModel.getD []).map FileListRow.item ++
    DirTreeItem.storedItems (w.dirTreeModel.getD [])

/-! ## The command line entry point (`src/src/main.cpp`) -/

/-- The globals of main.cpp that `g_option_context_parse` fills from the command
line; a `char*` that stays `NULL` is `none`, and `remaining_args` is `NULL` when
no archive is named. -/
structure Options where
  add_to : Option String
  add : Bool
  extract_to : Option String
  extract : Bool
  extract_here : Bool
  default_url : Option String
  remaining_args : Option (List String)

/-- What the user, the desktop and the engine answer while `runApp` runs. -/
structure Answers where
  /-- The helper `get_uri_from_command_line`, which asks GIO for the URI of a path. -/
  get_uri_from_command_line : String → String
  /-- URL returned by `QFileDialog::getExistingDirectoryUrl`, empty when cancelled. -/
  extractDirUrl : String
  /-- Whether the archive chooser of `--add` ended with `QDialog::Accepted`. -/
  addAccepted : Bool
  /-- First of the `selectedUrls()` of that chooser. -/
  addUrl : String
  /-- The `finish` signals that the engine emits while the progress dialog runs, oldest first. -/
  finishEvents : List (FrAction × ArchiverError)
  /-- Result of `archiver.isEncrypted()`. -/
  isEncrypted : Bool
  /-- Text returned by `PasswordDialog::askPassword()`. -/
  password : String
  /-- Value returned by `app.exec()`. -/
  appExec : Int

/-- What `runApp` does that can be observed from outside, in order. -/
inductive AppEffect where
  | mainWindowShown (loadedFile : Option String)
  | directoryChooser (startUrl : String)
  | archiveChooser (directoryUrl : Option String)
  | createNewArchive (uri : Option String)
  | openArchive (uri : String)
  | addDroppedItems (filePaths : List String) (destDir : Option String)
  | askPassword
  | extractHere (password : Option String)
  | extractAll (destUri : Option String) (password : Option String)
  | critical (message : String)
  | accept
  | reject
  deriving DecidableEq, Repr

/-- The conversion `QUrl::fromEncoded` of a `char*`: a null pointer gives the
empty URL. -/
def fromEncoded : Option String → String
  | some encoded => encoded
  | none => ""

/-- The `finish` handler that `runApp` connects in add mode. -/
def addFinished (o : Options) (filePaths : List String) (action : FrAction)
    (err : ArchiverError) : List AppEffect :=
  if err.hasError then [AppEffect.critical err.message, AppEffect.reject]
  else
    match action with
    | FrAction.FR_ACTION_CREATING_NEW_ARCHIVE =>
      [AppEffect.addDroppedItems filePaths o.default_url]
    | FrAction.FR_ACTION_ADDING_FILES => [AppEffect.accept]
    | _ => []

/-- The `finish` handler that `runApp` connects in extract mode. -/
def extractFinished (o : Options) (extract_to_uri : Option String) (isEncrypted : Bool)
    (askPassword : String) (action : FrAction) (err : ArchiverError) : List AppEffect :=
  if err.hasError then [AppEffect.critical err.message, AppEffect.reject]
  else
    match action with
    | FrAction.FR_ACTION_LISTING_CONTENT =>
      let prompt := if isEncrypted then [AppEffect.askPassword] else []
      let password_ := if isEncrypted then askPassword else ""
      let passwordArg := if password_.isEmpty then none else some password_
      if o.extract_here then prompt ++ [AppEffect.extractHere passwordArg]
      else prompt ++ [AppEffect.extractAll extract_to_uri passwordArg]
    | FrAction.FR_ACTION_EXTRACTING_FILES => [AppEffect.accept]
    | _ => []

/-- The call `dlg.exec()`: the handler runs on each finish event until it has
accepted or rejected the dialog; the events end when the dialog is closed. -/
def execDialog (handler : FrAction → ArchiverError → List AppEffect) :
    List (FrAction × ArchiverError) → List AppEffect
  | [] => []
  | (action, err) :: rest =>
    let effects := handler action err
    if AppEffect.accept ∈ effects ∨ AppEffect.reject ∈ effects then effects
    else effects ++ execDialog handler rest

/-- The first block of `runApp`: the extraction target.  `Except.error` is the
`return 1` after a cancelled chooser; the effects so far come with both
outcomes. -/
def chooseExtractTo (o : Options) (u : Answers) :
    Except (List AppEffect) (Option String × List AppEffect) :=
  match o.extract_to with
  | some dir => Except.ok (some (u.get_uri_from_command_line dir), [])
  | none =>
    if o.extract && !o.extract_here then
      let startUrl := if o.default_url.isSome then "" else fromEncoded o.default_url
      let shown := [AppEffect.directoryChooser startUrl]
      if u.extractDirUrl.isEmpty then Except.error shown
      else Except.ok (some u.extractDirUrl, shown)
    else Except.ok (none, [])

/-- The second block of `runApp`: the archive to add to. -/
def chooseAddTo (o : Options) (u : Answers) :
    Except (List AppEffect) (Option String × List AppEffect) :=
  match o.add_to with
  | some archive => Except.ok (some (u.get_uri_from_command_line archive), [])
  | none =>
    if o.add then
      let shown := [AppEffect.archiveChooser o.default_url]
      if u.addAccepted then
        if u.addUrl.isEmpty then Except.error shown
        else Except.ok (some u.addUrl, shown)
      else Except.error shown
    else Except.ok (none, [])

/-- The `while` loop of the extract branch of `runApp`.  Its body ends with
`return 0`, so the arguments after the first are never visited; `none` is the
loop ending without a `return`. -/
def extractLoop (o : Options) (u : Answers) (extract_to_uri : Option String) :
    List String → Option Int × List AppEffect
  | [] => (none, [])
  | filename :: _ =>
    (some 0,
      [AppEffect.openArchive (u.get_uri_from_command_line filename)] ++
        execDialog (extractFinished o extract_to_uri u.isEncrypted u.password)
          u.finishEvents)

/-- The function `runApp` of main.cpp: the exit status and what was done. -/
def runApp (o : Options) (u : Answers) : Int × List AppEffect :=
  match o.remaining_args with
  | none => (u.appExec, [AppEffect.mainWindowShown none])
  | some args =>
    match chooseExtractTo o u with
    | Except.error e1 => (1, e1)
    | Except.ok (extract_to_uri, e1) =>
      match chooseAddTo o u with
      | Except.error e2 => (1, e1 ++ e2)
      | Except.ok (add_to_uri, e2) =>
        if o.add_to.isSome || o.add then
          (0, e1 ++ e2 ++ [AppEffect.createNewArchive add_to_uri] ++
            execDialog (addFinished o args) u.finishEvents)
        else if o.extract_to.isSome || o.extract || o.extract_here then
          match extractLoop o u extract_to_uri args with
          | (some status, e3) => (status, e1 ++ e2 ++ e3)
          | (none, e3) => (u.appExec, e1 ++ e2 ++ e3)
        else
          (u.appExec,
            e1 ++ e2 ++ args.map fun filename => AppEffect.mainWindowShown (some filename))

/-! ## The sorting proxy between the file-list model and the view -/

namespace ArchiverProxyModel

/-- Modelled from the spec: the row comparison of `ArchiverProxyModel`
(archiverproxymodel.h and .cpp are not among the sources).  With `folderFirst`
set, a row whose item is a directory comes before a row whose item is a file
("directories first"); two rows of the same kind compare by their texts with
`nameLess`, the locale-aware comparison, which is a parameter. -/
def lessThan (folderFirst : Bool) (nameLess : String → String → Bool)
    (l r : FileListRow) : Bool :=
  if folderFirst && (l.item.isDir != r.item.isDir) then l.item.isDir
  else nameLess l.text r.text

/-- Modelled from the spec: the order in which `ArchiverProxyModel` presents
the rows of its source model after `sort(0, Qt::AscendingOrder)`: a stable
insertion sort by `lessThan`. -/
def sortedRows (folderFirst : Bool) (nameLess : String → String → Bool)
    (rows : List FileListRow) : List FileListRow :=
  rows.insertionSort (fun l r => lessThan folderFirst nameLess r l = false)

end ArchiverProxyModel

/-- The rows that `fileListView` presents: the source model seen through
`proxyModel_`, on which the constructor calls `setFolderFirst(true)` and
`sort(0, Qt::AscendingOrder)`. -/
def MainWindow.fileListView (nameLess : String → String → Bool) (w : MainWindow) :
    List FileListRow :=
  ArchiverProxyModel.sortedRows true nameLess (w.fileListModel.getD [])

/-- No file row stands before a directory row. -/
def MainWindow.DirsFirst (rows : List FileListRow) : Prop :=
  rows.Pairwise fun x y => y.item.isDir = true → x.item.isDir = true

/-! ## Sample archive and window used to evaluate the definitions -/

namespace Sample

def fileC : ArchiverItem :=
  .mk "c.txt" "a/b/c.txt" "/a/b/c.txt" false false (some ⟨"/a/b/c.txt"⟩) []

def dirB : ArchiverItem := .mk "b" "a/b/" "/a/b/" true false none [fileC]

def fileD : ArchiverItem :=
  .mk "d.txt" "a/d.txt" "/a/d.txt" false false (some ⟨"/a/d.txt"⟩) []

/-- Directory `a/`: the file `d.txt` is listed before the directory `b`. -/
def dirA : ArchiverItem := .mk "a" "a/" "/a/" true false none [fileD, dirB]

def fileE : ArchiverItem := .mk "e.txt" "e.txt" "/e.txt" false false (some ⟨"/e.txt"⟩) []

def root : ArchiverItem := .mk "" "" "/" true false none [dirA, fileE]

/-- A loaded, idle archive holding `a/b/c.txt`, `a/d.txt` and `e.txt`. -/
def archiver : Archiver :=
  { isLoaded := true
    isBusy := false
    dirTreeRoot := some root
    dirByPath := fun path =>
      if path = "" then some root
      else if path = "a/" then some dirA
      else if path = "a/b/" then some dirB
      else none
    parentDir := fun item =>
      if item = dirA then some root
      else if item = dirB then some dirA
      else none
    flatFileList := [fileC, fileD, fileE]
    archiveBaseName := "sample.zip" }

/-- The same archive while an operation is in flight. -/
def busyArchiver : Archiver := { archiver with isBusy := true }

/-- An engine that is busy and has no archive loaded yet. -/
def busyEmptyArchiver : Archiver :=
  { isLoaded := false
    isBusy := true
    dirTreeRoot := none
    dirByPath := fun _ => none
    parentDir := fun _ => none
    flatFileList := []
    archiveBaseName := "" }

/-- The window after the sample archive was opened and its content listed:
the current directory is the root. -/
def atRoot : MainWindow :=
  (MainWindow.onActionFinished archiver (MainWindow.init archiver true)
    FrAction.FR_ACTION_LISTING_CONTENT ⟨false, ""⟩).getD (MainWindow.init archiver true)

/-- The window after moving from the root into `a/` and selecting the row of
`d.txt`. -/
def inDirA : MainWindow :=
  { (MainWindow.chdir archiver atRoot (some dirA)).getD atRoot with fileListSelection := [1] }

/-- A loaded, idle engine that reports no tree root and resolves no path. -/
def rootlessArchiver : Archiver :=
  { isLoaded := true
    isBusy := false
    dirTreeRoot := none
    dirByPath := fun _ => none
    parentDir := fun _ => none
    flatFileList := []
    archiveBaseName := "broken.zip" }

/-- The window at the root of the sample archive with the row of `e.txt`
selected. -/
def atRootSelected : MainWindow := { atRoot with fileListSelection := [1] }

/-- The sample archive after `a/` was deleted from it: only `e.txt` is left. -/
def rootAfterDelete : ArchiverItem := .mk "" "" "/" true false none [fileE]

/-- The engine answers for the sample archive after `a/` was deleted. -/
def archiverAfterDelete : Archiver :=
  { isLoaded := true
    isBusy := false
    dirTreeRoot := some rootAfterDelete
    dirByPath := fun path => if path = "" then some rootAfterDelete else none
    parentDir := fun _ => none
    flatFileList := [fileE]
    archiveBaseName := "sample.zip" }

/-- A session: the sample archive is listed, the user enters `a/` and switches
to the flat list, then `a/` is deleted and the archive is listed again. -/
def session : List NavEvent :=
  [ NavEvent.actionFinished archiver FrAction.FR_ACTION_LISTING_CONTENT ⟨false, ""⟩,
    NavEvent.chdirItem archiver dirA,
    NavEvent.setViewMode archiver ViewMode.FlatList,
    NavEvent.invalidateContent,
    NavEvent.actionFinished archiverAfterDelete FrAction.FR_ACTION_LISTING_CONTENT
      ⟨false, ""⟩ ]

/-- The window at the end of the session. -/
def afterSession : MainWindow :=
  (MainWindow.run (MainWindow.init archiver true) session).getD
    (MainWindow.init archiver true)

/-- Answers of a run in which the choosers are cancelled, the archive is not
encrypted, and the engine lists and then extracts without error. -/
def answers : Answers :=
  { get_uri_from_command_line := fun path => "file://" ++ path
    extractDirUrl := ""
    addAccepted := false
    addUrl := ""
    finishEvents :=
      [(FrAction.FR_ACTION_LISTING_CONTENT, ⟨false, ""⟩),
        (FrAction.FR_ACTION_EXTRACTING_FILES, ⟨false, ""⟩)]
    isEncrypted := false
    password := ""
    appExec := 0 }

/-- The command line `--extract-to /tmp/out /home/u/a.zip /home/u/b.zip`. -/
def extractTwo : Options :=
  { add_to := none
    add := false
    extract_to := some "/tmp/out"
    extract := false
    extract_here := false
    default_url := none
    remaining_args := some ["/home/u/a.zip", "/home/u/b.zip"] }

/-- The command line `--extract --default-dir=file:///home/u /home/u/a.zip`. -/
def extractAsk : Options :=
  { add_to := none
    add := false
    extract_to := none
    extract := true
    extract_here := false
    default_url := some "file:///home/u"
    remaining_args := some ["/home/u/a.zip"] }

/-- The command line `--add --default-dir=file:///home/u /home/u/notes.txt`. -/
def addAsk : Options :=
  { add_to := none
    add := true
    extract_to := none
    extract := false
    extract_here := false
    default_url := some "file:///home/u"
    remaining_args := some ["/home/u/notes.txt"] }

/-- A case-sensitive stand-in for the locale-aware text comparison. -/
def nameLess (x y : String) : Bool := decide (x < y)

end Sample

/-! ## Properties -/

namespace MainWindow

@[simp] theorem showFileList_viewMode (a : Archiver) (w : MainWindow) (files : List ArchiverItem) :
    (showFileList a w files).viewMode_ = w.viewMode_ := rfl

@[simp] theorem showFileList_currentDirItem (a : Archiver) (w : MainWindow)
    (files : List ArchiverItem) :
    (showFileList a w files).currentDirItem_ = w.currentDirItem_ := rfl

@[simp] theorem showFileList_currentDirPath (a : Archiver) (w : MainWindow)
    (files : List ArchiverItem) :
    (showFileList a w files).currentDirPath_ = w.currentDirPath_ := rfl

@[simp] theorem showFileList_engineCalls (a : Archiver) (w : MainWindow)
    (files : List ArchiverItem) :
    (showFileList a w files).engineCalls = w.engineCalls := rfl

@[simp] theorem showFileList_dirTreeModel (a : Archiver) (w : MainWindow)
    (files : List ArchiverItem) :
    (showFileList a w files).dirTreeModel = w.dirTreeModel := rfl

@[simp] theorem showFileList_dialogs (a : Archiver) (w : MainWindow)
    (files : List ArchiverItem) :
    (showFileList a w files).dialogs = w.dialogs := rfl

theorem showCurrentDirList_frame (a : Archiver) (w : MainWindow) :
    (showCurrentDirList a w).viewMode_ = w.viewMode_ ∧
    (showCurrentDirList a w).currentDirItem_ = w.currentDirItem_ ∧
    (showCurrentDirList a w).currentDirPath_ = w.currentDirPath_ ∧
    (showCurrentDirList a w).engineCalls = w.engineCalls ∧
    (showCurrentDirList a w).dirTreeModel = w.dirTreeModel ∧
    (showCurrentDirList a w).dialogs = w.dialogs := by
  unfold showCurrentDirList
  simp only
  split <;> simp

theorem showFlatFileList_frame (a : Archiver) (w : MainWindow) :
    (showFlatFileList a w).viewMode_ = w.viewMode_ ∧
    (showFlatFileList a w).currentDirItem_ = w.currentDirItem_ ∧
    (showFlatFileList a w).currentDirPath_ = w.currentDirPath_ ∧
    (showFlatFileList a w).engineCalls = w.engineCalls ∧
    (showFlatFileList a w).dirTreeModel = w.dirTreeModel ∧
    (showFlatFileList a w).dialogs = w.dialogs := by
  simp [showFlatFileList]

/-- Moving to a non-null node always completes, and leaves the node and its
full path as the current directory. -/
theorem chdir_some (a : Archiver) (w : MainWindow) (d : ArchiverItem) :
    ∃ w2, chdir a w (some d) = some w2 ∧
      w2.currentDirItem_ = some d ∧ w2.currentDirPath_ = d.fullPath ∧
      w2.viewMode_ = w.viewMode_ ∧ w2.engineCalls = w.engineCalls ∧
      w2.dialogs = w.dialogs := by
  have hshow : ∀ w1 : MainWindow,
      (if w1.viewMode_ = ViewMode.DirTree then showCurrentDirList a w1
        else showFlatFileList a w1).viewMode_ = w1.viewMode_ ∧
      (if w1.viewMode_ = ViewMode.DirTree then showCurrentDirList a w1
        else showFlatFileList a w1).currentDirItem_ = w1.currentDirItem_ ∧
      (if w1.viewMode_ = ViewMode.DirTree then showCurrentDirList a w1
        else showFlatFileList a w1).currentDirPath_ = w1.currentDirPath_ ∧
      (if w1.viewMode_ = ViewMode.DirTree then showCurrentDirList a w1
        else showFlatFileList a w1).engineCalls = w1.engineCalls ∧
      (if w1.viewMode_ = ViewMode.DirTree then showCurrentDirList a w1
        else showFlatFileList a w1).dialogs = w1.dialogs := by
    intro w1
    have h1 := showCurrentDirList_frame a w1
    have h2 := showFlatFileList_frame a w1
    split <;> simp [h1, h2]
  unfold chdir
  simp only
  obtain ⟨e1, e2, e3, e4, e5⟩ := hshow { w with
      currentDirPath_ := d.fullPath
      currentPathEditText := d.fullPath
      currentDirItem_ := some d }
  split
  · split
    · exact ⟨_, rfl, e2, e3, e1, e4, e5⟩
    · exact ⟨_, rfl, e2, e3, e1, e4, e5⟩
  · exact ⟨_, rfl, e2, e3, e1, e4, e5⟩

/-- With a non-null tree root `updateDirTree` completes and touches neither
the current directory nor its path. -/
theorem updateDirTree_some (a : Archiver) (w : MainWindow) (root : ArchiverItem)
    (hroot : a.dirTreeRoot = some root) :
    ∃ w2, updateDirTree a w = some w2 ∧ w2.currentDirPath_ = w.currentDirPath_ ∧
      w2.currentDirItem_ = w.currentDirItem_ ∧ w2.viewMode_ = w.viewMode_ := by
  unfold updateDirTree buildDirTree
  rw [hroot]
  exact ⟨_, rfl, rfl, rfl, rfl⟩

@[simp] theorem showError_currentDirItem (w : MainWindow) (err : ArchiverError) :
    (showError w err).currentDirItem_ = w.currentDirItem_ := by
  unfold showError
  split <;> rfl

@[simp] theorem showError_currentDirPath (w : MainWindow) (err : ArchiverError) :
    (showError w err).currentDirPath_ = w.currentDirPath_ := by
  unfold showError
  split <;> rfl

/-- With a non-null root the content-listed branch completes with the
re-resolved directory, or the root, as current directory. -/
theorem contentListed_some (a : Archiver) (w : MainWindow) (root : ArchiverItem)
    (hroot : a.dirTreeRoot = some root) :
    ∃ w2, contentListed a w = some w2 ∧
      w2.currentDirItem_ = some ((a.dirByPath w.currentDirPath_).getD root) ∧
      w2.currentDirPath_ = ((a.dirByPath w.currentDirPath_).getD root).fullPath := by
  obtain ⟨u, hu, hpath, -, -⟩ := updateDirTree_some a w root hroot
  unfold contentListed
  rw [hu]
  simp only [hpath, hroot]
  cases hd : a.dirByPath w.currentDirPath_ with
  | none =>
    obtain ⟨w3, h3, hi, hp, -⟩ := chdir_some a { u with currentDirItem_ := some root } root
    exact ⟨w3, h3, by simpa using hi, by simpa using hp⟩
  | some d =>
    obtain ⟨w3, h3, hi, hp, -⟩ := chdir_some a { u with currentDirItem_ := some d } d
    exact ⟨w3, h3, by simpa using hi, by simpa using hp⟩

/-- A finish event of a content-listing kind, with a non-null root, ends with
the re-resolved directory (or the root) as current directory. -/
theorem onActionFinished_listing (a : Archiver) (w : MainWindow) (action : FrAction)
    (err : ArchiverError) (root : ArchiverItem)
    (hkind : action = FrAction.FR_ACTION_LISTING_CONTENT ∨
      action = FrAction.FR_ACTION_CREATING_ARCHIVE ∨
      action = FrAction.FR_ACTION_CREATING_NEW_ARCHIVE)
    (hroot : a.dirTreeRoot = some root) :
    ∃ w2, onActionFinished a w action err = some w2 ∧
      w2.currentDirItem_ = some ((a.dirByPath w.currentDirPath_).getD root) ∧
      w2.currentDirPath_ = ((a.dirByPath w.currentDirPath_).getD root).fullPath := by
  obtain ⟨w3, h3, hi, hp⟩ := contentListed_some a
    { setBusyState a w false with progressBarVisible := false } root hroot
  have hsw : finishedSwitch a { setBusyState a w false with progressBarVisible := false }
      action err = some w3 := by
    rcases hkind with h | h | h <;> subst h <;> exact h3
  refine ⟨showError w3 err, ?_, ?_, ?_⟩
  · unfold onActionFinished
    simp only [hsw]
  · simpa using hi
  · simpa using hp

/-- C1. Reload reconciliation: a finish event of a content-listing kind
(`FR_ACTION_LISTING_CONTENT`, `FR_ACTION_CREATING_ARCHIVE`,
`FR_ACTION_CREATING_NEW_ARCHIVE`) that arrives after `onInvalidateContent`, with
a non-null tree root, completes; afterwards the current directory is the node
that `dirByPath` returns for the path held before the reload when there is one,
and the new root otherwise, and `currentDirPath_` is the full path of that
node. -/
theorem C1_reload_reconciliation (a : Archiver) (w : MainWindow) (action : FrAction)
    (err : ArchiverError) (root : ArchiverItem)
    (hkind : action = FrAction.FR_ACTION_LISTING_CONTENT ∨
      action = FrAction.FR_ACTION_CREATING_ARCHIVE ∨
      action = FrAction.FR_ACTION_CREATING_NEW_ARCHIVE)
    (hroot : a.dirTreeRoot = some root) :
    ∃ w2, onActionFinished a (onInvalidateContent w) action err = some w2 ∧
      (∀ d, a.dirByPath w.currentDirPath_ = some d →
        w2.currentDirItem_ = some d ∧ w2.currentDirPath_ = d.fullPath) ∧
      (a.dirByPath w.currentDirPath_ = none →
        w2.currentDirItem_ = some root ∧ w2.currentDirPath_ = root.fullPath) := by
  obtain ⟨w2, h2, hi, hp⟩ :=
    onActionFinished_listing a (onInvalidateContent w) action err root hkind hroot
  have hsame : (onInvalidateContent w).currentDirPath_ = w.currentDirPath_ := rfl
  rw [hsame] at hi hp
  refine ⟨w2, h2, ?_, ?_⟩
  · intro d hd
    rw [hd] at hi hp
    exact ⟨hi, hp⟩
  · intro hd
    rw [hd] at hi hp
    exact ⟨hi, hp⟩

/-- C1 at the sample archive: the window was in `a/`, the reloaded archive
still has `a/`, and the listing finished without error. -/
theorem C1_reload_reconciliation_witness :
    ∃ w2, onActionFinished Sample.archiver (onInvalidateContent Sample.inDirA)
        FrAction.FR_ACTION_LISTING_CONTENT ⟨false, ""⟩ = some w2 ∧
      (∀ d, Sample.archiver.dirByPath Sample.inDirA.currentDirPath_ = some d →
        w2.currentDirItem_ = some d ∧ w2.currentDirPath_ = d.fullPath) ∧
      (Sample.archiver.dirByPath Sample.inDirA.currentDirPath_ = none →
        w2.currentDirItem_ = some Sample.root ∧
          w2.currentDirPath_ = Sample.root.fullPath) :=
  C1_reload_reconciliation Sample.archiver Sample.inDirA FrAction.FR_ACTION_LISTING_CONTENT
    ⟨false, ""⟩ Sample.root (Or.inl rfl) rfl

/-- The argument of `chdir(std::string)` is only compared with
`currentDirPath_`: two paths that both differ from it give the same window. -/
theorem chdir_string_argument_unused (a : Archiver) (w : MainWindow) (p q : String)
    (hp : p ≠ w.currentDirPath_) (hq : q ≠ w.currentDirPath_) :
    chdir_string a w p = chdir_string a w q := by
  unfold chdir_string
  simp only [hp, hq, ne_eq, not_false_eq_true, if_true]

/-- C2. `chdir(std::string)` looks up `currentDirPath_` instead of its
argument.  In the sample window at the root, `a/` names the directory `dirA`
and `chdir(dirA)` would move there, but `chdir("a/")` leaves the root as current
directory; and after an invalidation, `chdir("zzz")`, whose path names no
directory, sets the current directory and rebuilds the list instead of leaving
the state as it was. -/
theorem C2_chdir_string_resolves_current_path :
    Sample.archiver.dirByPath "a/" = some Sample.dirA ∧
    (chdir Sample.archiver Sample.atRoot (some Sample.dirA)).map (fun w => w.currentDirItem_)
      = some (some Sample.dirA) ∧
    (chdir_string Sample.archiver Sample.atRoot "a/").map (fun w => w.currentDirItem_)
      = some (some Sample.root) ∧
    (chdir_string Sample.archiver Sample.atRoot "a/").map (fun w => w.currentDirPath_)
      = some "" ∧
    Sample.archiver.dirByPath "zzz" = none ∧
    (onInvalidateContent Sample.atRoot).currentDirItem_ = none ∧
    (chdir_string Sample.archiver (onInvalidateContent Sample.atRoot) "zzz").map
      (fun w => w.currentDirItem_) = some (some Sample.root) := by
  decide

/-- The model that `showFileList` installs in directory-tree mode when a
current directory is set. -/
theorem showFileList_dirTree (a : Archiver) (w : MainWindow) (files : List ArchiverItem)
    (cur : ArchiverItem) (hmode : w.viewMode_ = ViewMode.DirTree)
    (hcur : w.currentDirItem_ = some cur) :
    (showFileList a w files).fileListModel =
      some ((match a.parentDir cur with
          | some p => [⟨"..", p, if p.isEncrypted then "*" else ""⟩]
          | none => []) ++
        files.map fun f => ⟨f.name, f, if f.isEncrypted then "*" else ""⟩) := by
  unfold showFileList createFileListRow
  simp only [hmode, hcur, if_true]
  cases a.parentDir cur <;> simp

/-- The model that `showFileList` installs in directory-tree mode when no
current directory is set. -/
theorem showFileList_dirTree_none (a : Archiver) (w : MainWindow) (files : List ArchiverItem)
    (hmode : w.viewMode_ = ViewMode.DirTree) (hcur : w.currentDirItem_ = none) :
    (showFileList a w files).fileListModel =
      some (files.map fun f => ⟨f.name, f, if f.isEncrypted then "*" else ""⟩) := by
  unfold showFileList createFileListRow
  simp [hmode, hcur]

/-- The model that `showFileList` installs in flat-list mode. -/
theorem showFileList_flat (a : Archiver) (w : MainWindow) (files : List ArchiverItem)
    (hmode : w.viewMode_ = ViewMode.FlatList) :
    (showFileList a w files).fileListModel =
      some (files.map fun f => ⟨f.fullPath, f, if f.isEncrypted then "*" else ""⟩) := by
  unfold showFileList createFileListRow
  simp [hmode]

/-- C3. In directory-tree mode, for the directory `dir` that
`showCurrentDirList` shows (the current directory, or the root when none is
set; the archiver reports no parent for its root), the model built is the
parent rows followed by exactly one row per child of `dir`, in order and
labelled with the child's name.  There is a parent row if and only if
`parentDir(dir)` returns a parent; there is at most one; it is labelled ".."
and references the parent.  Read on the texts alone, which is possible when no
child of `dir` is itself named "..": a row labelled ".." exists if and only if
`parentDir(dir)` returns a parent, at most one row is labelled so, and it
references the parent. -/
theorem C3_parent_row_iff_not_root (a : Archiver) (w : MainWindow) (dir : ArchiverItem)
    (hmode : w.viewMode_ = ViewMode.DirTree)
    (hdir : w.currentDirItem_ = some dir ∨
      (w.currentDirItem_ = none ∧ a.dirTreeRoot = some dir))
    (hroot : ∀ r, a.dirTreeRoot = some r → a.parentDir r = none) :
    ∃ rows parentRows : List FileListRow,
      (showCurrentDirList a w).fileListModel = some rows ∧
      rows = parentRows ++
        dir.children.map (fun f => ⟨f.name, f, if f.isEncrypted then "*" else ""⟩) ∧
      (parentRows ≠ [] ↔ ∃ p, a.parentDir dir = some p) ∧
      parentRows.length ≤ 1 ∧
      (∀ r ∈ parentRows, r.text = ".." ∧ a.parentDir dir = some r.item) ∧
      ((∀ c ∈ dir.children, c.name ≠ "..") →
        ((∃ r ∈ rows, r.text = "..") ↔ ∃ p, a.parentDir dir = some p) ∧
        rows.countP (fun r => r.text = "..") ≤ 1 ∧
        (∀ r ∈ rows, r.text = ".." → a.parentDir dir = some r.item)) := by
  have core : ∃ parentRows : List FileListRow,
      (showCurrentDirList a w).fileListModel = some (parentRows ++
        dir.children.map (fun f => ⟨f.name, f, if f.isEncrypted then "*" else ""⟩)) ∧
      (parentRows ≠ [] ↔ ∃ p, a.parentDir dir = some p) ∧
      parentRows.length ≤ 1 ∧
      (∀ r ∈ parentRows, r.text = ".." ∧ a.parentDir dir = some r.item) := by
    rcases hdir with hcur | ⟨hcur, hr⟩
    · have hshow : showCurrentDirList a w = showFileList a w dir.children := by
        unfold showCurrentDirList
        simp only [hcur]
      rw [hshow, showFileList_dirTree a w dir.children dir hmode hcur]
      cases a.parentDir dir with
      | none =>
        refine ⟨[], rfl, ?_, Nat.zero_le 1, ?_⟩
        · constructor
          · intro h
            exact absurd rfl h
          · rintro ⟨p, hp⟩
            cases hp
        · intro r hr
          cases hr
      | some p =>
        refine ⟨[⟨"..", p, if p.isEncrypted then "*" else ""⟩], rfl, ?_, Nat.le_refl 1, ?_⟩
        · constructor
          · intro _
            exact ⟨p, rfl⟩
          · intro _ h
            cases h
        · intro r hr
          simp only [List.mem_singleton] at hr
          subst hr
          exact ⟨rfl, rfl⟩
    · have hshow : showCurrentDirList a w = showFileList a w dir.children := by
        unfold showCurrentDirList
        simp only [hcur, hr]
      rw [hshow, showFileList_dirTree_none a w dir.children hmode hcur]
      have hnone := hroot dir hr
      refine ⟨[], rfl, ?_, Nat.zero_le 1, ?_⟩
      · constructor
        · intro h
          exact absurd rfl h
        · rintro ⟨p, hp⟩
          rw [hnone] at hp
          cases hp
      · intro r hr2
        cases hr2
  obtain ⟨parentRows, hmodel, hiff, hlen, hpar⟩ := core
  refine ⟨_, parentRows, hmodel, rfl, hiff, hlen, hpar, ?_⟩
  intro hnames
  have hchildren : ∀ r ∈ dir.children.map
      (fun f => (⟨f.name, f, if f.isEncrypted then "*" else ""⟩ : FileListRow)),
      r.text ≠ ".." := by
    intro r hr
    obtain ⟨c, hc, rfl⟩ := List.mem_map.mp hr
    exact hnames c hc
  have hcount : (dir.children.map
      (fun f => (⟨f.name, f, if f.isEncrypted then "*" else ""⟩ : FileListRow))).countP
      (fun r => r.text = "..") = 0 := by
    rw [List.countP_eq_zero]
    intro r hr
    simpa using hchildren r hr
  refine ⟨?_, ?_, ?_⟩
  · constructor
    · rintro ⟨r, hr, ht⟩
      rcases List.mem_append.mp hr with h1 | h2
      · exact hiff.mp (List.ne_nil_of_mem h1)
      · exact absurd ht (hchildren r h2)
    · intro hp
      obtain ⟨r, hr⟩ := List.exists_mem_of_ne_nil parentRows (hiff.mpr hp)
      exact ⟨r, List.mem_append_left _ hr, (hpar r hr).1⟩
  · rw [List.countP_append, hcount, Nat.add_zero]
    exact Nat.le_trans (List.countP_le_length _) hlen
  · intro r hr ht
    rcases List.mem_append.mp hr with h1 | h2
    · exact (hpar r h1).2
    · exact absurd ht (hchildren r h2)

/-- C3 at the sample window inside `a/`, whose parent is the root: the model
is the ".." row for the root followed by the rows of `d.txt` and `b`. -/
theorem C3_parent_row_iff_not_root_witness :
    ∃ rows parentRows : List FileListRow,
      (showCurrentDirList Sample.archiver Sample.inDirA).fileListModel = some rows ∧
      rows = parentRows ++
        Sample.dirA.children.map
          (fun f => ⟨f.name, f, if f.isEncrypted then "*" else ""⟩) ∧
      (parentRows ≠ [] ↔ ∃ p, Sample.archiver.parentDir Sample.dirA = some p) ∧
      parentRows.length ≤ 1 ∧
      (∀ r ∈ parentRows, r.text = ".." ∧
        Sample.archiver.parentDir Sample.dirA = some r.item) ∧
      ((∀ c ∈ Sample.dirA.children, c.name ≠ "..") →
        ((∃ r ∈ rows, r.text = "..") ↔
          ∃ p, Sample.archiver.parentDir Sample.dirA = some p) ∧
        rows.countP (fun r => r.text = "..") ≤ 1 ∧
        (∀ r ∈ rows, r.text = ".." →
          Sample.archiver.parentDir Sample.dirA = some r.item)) :=
  C3_parent_row_iff_not_root Sample.archiver Sample.inDirA Sample.dirA rfl (Or.inl rfl)
    (by
      intro r hr
      have h : r = Sample.root := by
        have h2 : some Sample.root = some r := hr
        exact (Option.some.inj h2).symm
      subst h
      decide)

/-- Inserting a row by the folder-first comparison keeps directories first. -/
theorem dirsFirst_orderedInsert (nameLess : String → String → Bool) (x : FileListRow) :
    ∀ rows : List FileListRow, DirsFirst rows →
      DirsFirst (rows.orderedInsert
        (fun l r => ArchiverProxyModel.lessThan true nameLess r l = false) x)
  | [], _ => by simp [DirsFirst]
  | b :: l, h => by
    have hb : ∀ y ∈ l, y.item.isDir = true → b.item.isDir = true :=
      (List.pairwise_cons.mp h).1
    have hl : DirsFirst l := (List.pairwise_cons.mp h).2
    by_cases hx : ArchiverProxyModel.lessThan true nameLess b x = false
    · rw [List.orderedInsert, if_pos hx]
      refine List.pairwise_cons.mpr ⟨?_, h⟩
      intro y hy hyd
      have hbd : b.item.isDir = true := by
        rcases List.mem_cons.mp hy with rfl | hy2
        · exact hyd
        · exact hb y hy2 hyd
      by_contra hxd
      have hxf : x.item.isDir = false := by simpa using hxd
      simp [ArchiverProxyModel.lessThan, hbd, hxf] at hx
    · rw [List.orderedInsert, if_neg hx]
      refine List.pairwise_cons.mpr ⟨?_, dirsFirst_orderedInsert nameLess x l hl⟩
      intro y hy hyd
      rcases (List.mem_orderedInsert _).mp hy with rfl | hy2
      · by_contra hbd
        have hbf : b.item.isDir = false := by simpa using hbd
        apply hx
        simp [ArchiverProxyModel.lessThan, hbf, hyd]
      · exact hb y hy2 hyd

/-- The folder-first proxy presents every list with directories first. -/
theorem dirsFirst_sortedRows (nameLess : String → String → Bool) :
    ∀ rows : List FileListRow,
      DirsFirst (ArchiverProxyModel.sortedRows true nameLess rows)
  | [] => by simp [DirsFirst, ArchiverProxyModel.sortedRows]
  | r :: l => by
    have ih := dirsFirst_sortedRows nameLess l
    unfold ArchiverProxyModel.sortedRows at ih ⊢
    rw [List.insertionSort]
    exact dirsFirst_orderedInsert nameLess r _ ih

/-- The model built by `showFileList` keeps the order of `children()`: in the
sample directory `a/` the file `d.txt` stands before the directory `b`. -/
theorem showFileList_keeps_children_order :
    (showCurrentDirList Sample.archiver Sample.inDirA).fileListModel.map
      (fun rows => rows.map fun r => (r.text, r.item.isDir))
      = some [("..", true), ("d.txt", false), ("b", true)] := by
  decide

/-- C4. Directories first: for the directory `dir` that `showCurrentDirList`
shows, the list presented by the folder-first proxy holds the rows of the
model built by `showFileList` (so a row for every child of `dir`), and no row
of a file stands before a row of a directory, whatever the text comparison. -/
theorem C4_directories_first (a : Archiver) (w : MainWindow) (dir : ArchiverItem)
    (nameLess : String → String → Bool)
    (hdir : w.currentDirItem_ = some dir ∨
      (w.currentDirItem_ = none ∧ a.dirTreeRoot = some dir)) :
    ∃ rows, (showCurrentDirList a w).fileListModel = some rows ∧
      (fileListView nameLess (showCurrentDirList a w)).Perm rows ∧
      (∀ c ∈ dir.children,
        ∃ r ∈ fileListView nameLess (showCurrentDirList a w), r.item = c) ∧
      (fileListView nameLess (showCurrentDirList a w)).Pairwise
        (fun x y => y.item.isDir = true → x.item.isDir = true) := by
  have hshow : showCurrentDirList a w = showFileList a w dir.children := by
    unfold showCurrentDirList
    rcases hdir with hcur | ⟨hcur, hr⟩
    · simp only [hcur]
    · simp only [hcur, hr]
  have hperm : ∀ rows : List FileListRow,
      (ArchiverProxyModel.sortedRows true nameLess rows).Perm rows := by
    intro rows
    exact List.perm_insertionSort _ rows
  obtain ⟨rows, hrows, hsub⟩ : ∃ rows, (showCurrentDirList a w).fileListModel = some rows ∧
      ∀ c ∈ dir.children, createFileListRow w c ∈ rows := by
    rw [hshow]
    refine ⟨_, rfl, ?_⟩
    intro c hc
    exact List.mem_append_right _ (List.mem_map_of_mem _ hc)
  have hview : fileListView nameLess (showCurrentDirList a w) =
      ArchiverProxyModel.sortedRows true nameLess rows := by
    unfold fileListView
    rw [hrows]
    rfl
  rw [hview]
  refine ⟨rows, hrows, hperm rows, ?_, dirsFirst_sortedRows nameLess rows⟩
  intro c hc
  exact ⟨createFileListRow w c, (hperm rows).mem_iff.mpr (hsub c hc), rfl⟩

/-- C4 at the sample window inside `a/`, whose children are listed by the
engine as the file `d.txt` followed by the directory `b`. -/
theorem C4_directories_first_witness :
    ∃ rows, (showCurrentDirList Sample.archiver Sample.inDirA).fileListModel = some rows ∧
      (fileListView Sample.nameLess
        (showCurrentDirList Sample.archiver Sample.inDirA)).Perm rows ∧
      (∀ c ∈ Sample.dirA.children,
        ∃ r ∈ fileListView Sample.nameLess
          (showCurrentDirList Sample.archiver Sample.inDirA), r.item = c) ∧
      (fileListView Sample.nameLess
        (showCurrentDirList Sample.archiver Sample.inDirA)).Pairwise
        (fun x y => y.item.isDir = true → x.item.isDir = true) :=
  C4_directories_first Sample.archiver Sample.inDirA Sample.dirA Sample.nameLess (Or.inl rfl)

/-- C5. Flat projection: in flat-list mode, whatever the current directory
(also one that has a parent), the model built by `showFlatFileList` has one
row per entry of `flatFileList()`: row `i` references entry `i` and is labelled
with its full path.  No row is relabelled: every text is the full path of the
row's own entry, so a row reads ".." only if an entry has that full path. -/
theorem C5_flat_projection (a : Archiver) (w : MainWindow)
    (hmode : w.viewMode_ = ViewMode.FlatList) :
    ∃ rows, (showFlatFileList a w).fileListModel = some rows ∧
      rows.length = a.flatFileList.length ∧
      (∀ i (h : i < a.flatFileList.length),
        rows[i]? = some
          ⟨(a.flatFileList.get ⟨i, h⟩).fullPath, a.flatFileList.get ⟨i, h⟩,
            if (a.flatFileList.get ⟨i, h⟩).isEncrypted then "*" else ""⟩) ∧
      (∀ r ∈ rows, r.text = r.item.fullPath) ∧
      ((∀ f ∈ a.flatFileList, f.fullPath ≠ "..") → ∀ r ∈ rows, r.text ≠ "..") := by
  unfold showFlatFileList
  rw [showFileList_flat a w a.flatFileList hmode]
  have hall : ∀ r ∈ a.flatFileList.map
      (fun f => (⟨f.fullPath, f, if f.isEncrypted then "*" else ""⟩ : FileListRow)),
      r.text = r.item.fullPath ∧ r.item ∈ a.flatFileList := by
    intro r hr
    obtain ⟨f, hf, rfl⟩ := List.mem_map.mp hr
    exact ⟨rfl, hf⟩
  refine ⟨_, rfl, by simp, ?_, ?_, ?_⟩
  · intro i h
    simp [List.getElem?_eq_getElem h]
  · intro r hr
    exact (hall r hr).1
  · intro hne r hr ht
    exact hne r.item (hall r hr).2 ((hall r hr).1 ▸ ht)

/-- C5 at the sample window inside `a/`, which has a parent, switched to
flat-list mode. -/
theorem C5_flat_projection_witness :
    ∃ rows, (showFlatFileList Sample.archiver
        { Sample.inDirA with viewMode_ := ViewMode.FlatList }).fileListModel = some rows ∧
      rows.length = Sample.archiver.flatFileList.length ∧
      (∀ i (h : i < Sample.archiver.flatFileList.length),
        rows[i]? = some
          ⟨(Sample.archiver.flatFileList.get ⟨i, h⟩).fullPath,
            Sample.archiver.flatFileList.get ⟨i, h⟩,
            if (Sample.archiver.flatFileList.get ⟨i, h⟩).isEncrypted then "*" else ""⟩) ∧
      (∀ r ∈ rows, r.text = r.item.fullPath) ∧
      ((∀ f ∈ Sample.archiver.flatFileList, f.fullPath ≠ "..") →
        ∀ r ∈ rows, r.text ≠ "..") :=
  C5_flat_projection Sample.archiver { Sample.inDirA with viewMode_ := ViewMode.FlatList } rfl

/-- C6. `setViewMode(m)`: with `m` equal to the current mode the window is
unchanged.  Otherwise the mode becomes `m` and the current directory and its
path stay as they were; in flat-list mode the model holds one row per entry of
`flatFileList()`, labelled with its full path; in directory-tree mode it holds
the listing of the directory shown (the current directory, or the root when
none is set): one row per child, labelled with its name, after the ".." row
when the current directory has a parent.  When there is neither a current
directory nor a root, the model is left as it was. -/
theorem C6_setViewMode (a : Archiver) (w : MainWindow) (m : ViewMode) :
    (m = w.viewMode_ → setViewMode a w m = w) ∧
    (m ≠ w.viewMode_ →
      (setViewMode a w m).viewMode_ = m ∧
      (setViewMode a w m).currentDirItem_ = w.currentDirItem_ ∧
      (setViewMode a w m).currentDirPath_ = w.currentDirPath_ ∧
      (m = ViewMode.FlatList →
        (setViewMode a w m).fileListModel =
          some (a.flatFileList.map fun f =>
            ⟨f.fullPath, f, if f.isEncrypted then "*" else ""⟩)) ∧
      (m = ViewMode.DirTree → ∀ dir, w.currentDirItem_ = some dir →
        (setViewMode a w m).fileListModel =
          some ((match a.parentDir dir with
              | some p => [⟨"..", p, if p.isEncrypted then "*" else ""⟩]
              | none => []) ++
            dir.children.map fun f => ⟨f.name, f, if f.isEncrypted then "*" else ""⟩)) ∧
      (m = ViewMode.DirTree → ∀ root, w.currentDirItem_ = none → a.dirTreeRoot = some root →
        (setViewMode a w m).fileListModel =
          some (root.children.map fun f =>
            ⟨f.name, f, if f.isEncrypted then "*" else ""⟩)) ∧
      (m = ViewMode.DirTree → w.currentDirItem_ = none → a.dirTreeRoot = none →
        (setViewMode a w m).fileListModel = w.fileListModel)) := by
  constructor
  · intro h
    unfold setViewMode
    simp [h]
  · intro h
    have h2 : w.viewMode_ ≠ m := fun e => h e.symm
    cases m with
    | FlatList =>
      have e : setViewMode a w ViewMode.FlatList = showFlatFileList a
          { w with viewMode_ := ViewMode.FlatList, dirTreeVisible := false } := by
        unfold setViewMode
        simp only [h2, ne_eq, not_false_eq_true, if_true]
      rw [e]
      refine ⟨rfl, rfl, rfl, ?_, ?_, ?_, ?_⟩
      · intro _
        exact showFileList_flat a _ a.flatFileList rfl
      · intro hm
        cases hm
      · intro hm
        cases hm
      · intro hm
        cases hm
    | DirTree =>
      have e : setViewMode a w ViewMode.DirTree = showCurrentDirList a
          { w with viewMode_ := ViewMode.DirTree, dirTreeVisible := w.actionDirTreeChecked } := by
        unfold setViewMode
        simp only [h2, ne_eq, not_false_eq_true, if_true]
      rw [e]
      obtain ⟨f1, f2, f3, -⟩ := showCurrentDirList_frame a
        { w with viewMode_ := ViewMode.DirTree, dirTreeVisible := w.actionDirTreeChecked }
      refine ⟨f1, f2, f3, ?_, ?_, ?_, ?_⟩
      · intro hm
        cases hm
      · intro _ dir hcur
        have hs : showCurrentDirList a
            { w with viewMode_ := ViewMode.DirTree, dirTreeVisible := w.actionDirTreeChecked } =
            showFileList a
              { w with viewMode_ := ViewMode.DirTree, dirTreeVisible := w.actionDirTreeChecked }
              dir.children := by
          unfold showCurrentDirList
          simp only [hcur]
        rw [hs]
        exact showFileList_dirTree a _ dir.children dir rfl hcur
      · intro _ root hcur hroot
        have hs : showCurrentDirList a
            { w with viewMode_ := ViewMode.DirTree, dirTreeVisible := w.actionDirTreeChecked } =
            showFileList a
              { w with viewMode_ := ViewMode.DirTree, dirTreeVisible := w.actionDirTreeChecked }
              root.children := by
          unfold showCurrentDirList
          simp only [hcur, hroot]
        rw [hs]
        exact showFileList_dirTree_none a _ root.children rfl hcur
      · intro _ hcur hroot
        unfold showCurrentDirList
        simp only [hcur, hroot]

/-- C6 at the sample window inside `a/`, switched from directory-tree mode to
flat-list mode. -/
theorem C6_setViewMode_witness :
    ViewMode.FlatList ≠ Sample.inDirA.viewMode_ ∧
    (setViewMode Sample.archiver Sample.inDirA ViewMode.FlatList).viewMode_
      = ViewMode.FlatList ∧
    (setViewMode Sample.archiver Sample.inDirA ViewMode.FlatList).currentDirItem_
      = some Sample.dirA ∧
    (setViewMode Sample.archiver Sample.inDirA ViewMode.FlatList).currentDirPath_ = "a/" ∧
    (setViewMode Sample.archiver Sample.inDirA ViewMode.FlatList).fileListModel =
      some (Sample.archiver.flatFileList.map fun f =>
        ⟨f.fullPath, f, if f.isEncrypted then "*" else ""⟩) :=
  have h := (C6_setViewMode Sample.archiver Sample.inDirA ViewMode.FlatList).2 (by decide)
  ⟨by decide, h.1, h.2.1, h.2.2.1, h.2.2.2.1 rfl⟩

/-- The test `isEmpty()` of a URL or string, as a comparison with the empty
string. -/
theorem isEmpty_eq_decide (str : String) : str.isEmpty = decide (str = "") := by
  rw [Bool.eq_iff_iff]
  simp [String.isEmpty_iff]

/-- C7 as stated fails: with the sample archive busy, the create handler still
issues `createNewArchive` when the chooser returns a URL. -/
theorem C7_busy_handler_still_dispatches :
    ¬ (∀ (a : Archiver) (w : MainWindow) (cmd : Command), a.isBusy = true →
      (trigger a w cmd).engineCalls = w.engineCalls) := by
  intro h
  have h2 := h Sample.busyArchiver Sample.atRoot (Command.createNew "file:///tmp/new.zip") rfl
  revert h2
  decide

/-- C7, amended. The handlers never consult `isBusy()`: the window after a
command is the same whatever the archiver reports as busy state.  A handler
issues no engine call exactly when its own guard refuses: an empty chooser
result for create, open, add files, add folder and extract; a declined
confirmation or an empty selection for delete; no loaded archive for test and
reload.  Otherwise it issues exactly one call. -/
theorem C7_handlers_ignore_busy (a : Archiver) (w : MainWindow) (cmd : Command) :
    (∀ b : Bool, trigger { a with isBusy := b } w cmd = trigger a w cmd) ∧
    ((trigger a w cmd).engineCalls = w.engineCalls ↔
      match cmd with
      | Command.createNew url => url = ""
      | Command.openArchive url => url = ""
      | Command.addFiles fileUrls => fileUrls = []
      | Command.addFolder dirUrl => dirUrl = ""
      | Command.delete confirmed => confirmed = false ∨ selectedFiles w = []
      | Command.extract dirUrl => dirUrl = ""
      | Command.testIntegrity => a.isLoaded = false
      | Command.reload => a.isLoaded = false) ∧
    ((trigger a w cmd).engineCalls = w.engineCalls ∨
      ∃ call, (trigger a w cmd).engineCalls = w.engineCalls ++ [call]) := by
  refine ⟨?_, ?_, ?_⟩
  · intro b
    cases cmd <;> rfl
  · cases cmd with
    | createNew url =>
      by_cases hu : url = "" <;>
        simp [trigger, on_actionCreateNew_triggered, isEmpty_eq_decide, hu]
    | openArchive url =>
      by_cases hu : url = "" <;>
        simp [trigger, on_actionOpen_triggered, isEmpty_eq_decide, hu]
    | addFiles fileUrls =>
      cases fileUrls <;> simp [trigger, on_actionAddFiles_triggered]
    | addFolder dirUrl =>
      by_cases hu : dirUrl = "" <;>
        simp [trigger, on_actionAddFolder_triggered, isEmpty_eq_decide, hu]
    | delete confirmed =>
      cases confirmed
      · simp [trigger, on_actionDelete_triggered]
      · cases hs : selectedFiles w <;> simp [trigger, on_actionDelete_triggered, hs]
    | extract dirUrl =>
      by_cases hu : dirUrl = ""
      · simp [trigger, on_actionExtract_triggered, isEmpty_eq_decide, hu]
      · cases hs : selectedFiles w <;>
          simp [trigger, on_actionExtract_triggered, isEmpty_eq_decide, hu, hs]
    | testIntegrity =>
      cases hl : a.isLoaded <;> simp [trigger, on_actionTest_triggered, hl]
    | reload =>
      cases hl : a.isLoaded <;> simp [trigger, on_actionReload_triggered, hl]
  · cases cmd with
    | createNew url =>
      by_cases hu : url = "" <;>
        simp [trigger, on_actionCreateNew_triggered, isEmpty_eq_decide, hu]
    | openArchive url =>
      by_cases hu : url = "" <;>
        simp [trigger, on_actionOpen_triggered, isEmpty_eq_decide, hu]
    | addFiles fileUrls =>
      cases fileUrls <;> simp [trigger, on_actionAddFiles_triggered]
    | addFolder dirUrl =>
      by_cases hu : dirUrl = "" <;>
        simp [trigger, on_actionAddFolder_triggered, isEmpty_eq_decide, hu]
    | delete confirmed =>
      cases confirmed
      · simp [trigger, on_actionDelete_triggered]
      · cases hs : selectedFiles w <;> simp [trigger, on_actionDelete_triggered, hs]
    | extract dirUrl =>
      by_cases hu : dirUrl = ""
      · simp [trigger, on_actionExtract_triggered, isEmpty_eq_decide, hu]
      · cases hs : selectedFiles w <;>
          simp [trigger, on_actionExtract_triggered, isEmpty_eq_decide, hu, hs]
    | testIntegrity =>
      cases hl : a.isLoaded <;> simp [trigger, on_actionTest_triggered, hl]
    | reload =>
      cases hl : a.isLoaded <;> simp [trigger, on_actionReload_triggered, hl]

/-- C8 as stated fails: with a busy engine and no archive loaded,
`updateUiStates` leaves create-new and open enabled. -/
theorem C8_busy_without_archive_keeps_load_actions :
    ¬ (∀ (a : Archiver) (w : MainWindow), a.isBusy = true →
      (updateUiStates a w).actionCreateNewEnabled = false ∧
      (updateUiStates a w).actionOpenEnabled = false ∧
      (updateUiStates a w).actionAddFilesEnabled = false ∧
      (updateUiStates a w).actionAddFolderEnabled = false ∧
      (updateUiStates a w).actionDeleteEnabled = false ∧
      (updateUiStates a w).actionExtractEnabled = false) := by
  intro h
  have h2 := (h Sample.busyEmptyArchiver Sample.atRoot rfl).1
  revert h2
  decide

/-- C8, amended. While the archiver is busy, `updateUiStates` (and
`setBusyState`, which ends with it) disables add-files, add-folder, delete and
extract in every case; create-new and open are disabled exactly when an archive
is loaded, and stay enabled when none is. -/
theorem C8_busy_ui_states (a : Archiver) (w : MainWindow) (busy : Bool)
    (hbusy : a.isBusy = true) :
    ((updateUiStates a w).actionAddFilesEnabled = false ∧
      (updateUiStates a w).actionAddFolderEnabled = false ∧
      (updateUiStates a w).actionDeleteEnabled = false ∧
      (updateUiStates a w).actionExtractEnabled = false ∧
      (updateUiStates a w).actionCreateNewEnabled = !a.isLoaded ∧
      (updateUiStates a w).actionOpenEnabled = !a.isLoaded) ∧
    ((setBusyState a w busy).actionAddFilesEnabled = false ∧
      (setBusyState a w busy).actionAddFolderEnabled = false ∧
      (setBusyState a w busy).actionDeleteEnabled = false ∧
      (setBusyState a w busy).actionExtractEnabled = false ∧
      (setBusyState a w busy).actionCreateNewEnabled = !a.isLoaded ∧
      (setBusyState a w busy).actionOpenEnabled = !a.isLoaded) := by
  simp [setBusyState, updateUiStates, hbusy]

/-- C8, amended, at the sample archive while it is busy. -/
theorem C8_busy_ui_states_witness :
    Sample.busyArchiver.isBusy = true ∧
    (updateUiStates Sample.busyArchiver Sample.atRoot).actionExtractEnabled = false ∧
    (updateUiStates Sample.busyArchiver Sample.atRoot).actionCreateNewEnabled = false :=
  have h := C8_busy_ui_states Sample.busyArchiver Sample.atRoot true rfl
  ⟨rfl, h.1.2.2.2.1, h.1.2.2.2.2.1⟩

/-- The entries that `selectedFiles` returns are the `data()` of the items of
the selected rows. -/
theorem mem_selectedFiles (w : MainWindow) (f : FileData) :
    f ∈ selectedFiles w ↔
      ∃ idx ∈ w.fileListSelection, ∃ rows row, w.fileListModel = some rows ∧
        rows[idx]? = some row ∧ row.item.data = some f := by
  unfold selectedFiles itemFromIndex
  rw [List.mem_filterMap]
  constructor
  · rintro ⟨idx, hidx, h⟩
    cases hm : w.fileListModel with
    | none => simp [hm] at h
    | some rows =>
      cases hr : rows[idx]? with
      | none => simp [hm, hr] at h
      | some row =>
        simp only [hm, hr, Option.map_some'] at h
        exact ⟨idx, hidx, rows, row, rfl, hr, h⟩
  · rintro ⟨idx, hidx, rows, row, hm, hr, h⟩
    refine ⟨idx, hidx, ?_⟩
    simp only [hm, hr, Option.map_some']
    exact h

/-- C9. Extract dispatch: `on_actionExtract_triggered` issues no engine call
when the destination chooser returns an empty URL; otherwise it issues exactly
one: `extractAll` to the chosen destination when `selectedFiles()` is empty,
and `extractFiles` with the selected entries (the data of the selected rows)
and the chosen destination when it is not. -/
theorem C9_extract_dispatch (w : MainWindow) (dirUrl : String) :
    (dirUrl = "" → (on_actionExtract_triggered w dirUrl).engineCalls = w.engineCalls) ∧
    (dirUrl ≠ "" → selectedFiles w = [] →
      (on_actionExtract_triggered w dirUrl).engineCalls =
        w.engineCalls ++ [EngineCall.extractAll dirUrl]) ∧
    (dirUrl ≠ "" → selectedFiles w ≠ [] →
      (on_actionExtract_triggered w dirUrl).engineCalls =
        w.engineCalls ++
          [EngineCall.extractFiles (selectedFiles w) dirUrl w.currentDirPath_]) ∧
    (∀ f, f ∈ selectedFiles w ↔
      ∃ idx ∈ w.fileListSelection, ∃ rows row, w.fileListModel = some rows ∧
        rows[idx]? = some row ∧ row.item.data = some f) := by
  refine ⟨?_, ?_, ?_, mem_selectedFiles w⟩
  · intro hu
    simp [on_actionExtract_triggered, isEmpty_eq_decide, hu]
  · intro hu hs
    simp [on_actionExtract_triggered, isEmpty_eq_decide, hu, hs]
  · intro hu hs
    cases hsel : selectedFiles w with
    | nil => exact absurd hsel hs
    | cons f fs => simp [on_actionExtract_triggered, isEmpty_eq_decide, hu, hsel]

/-- C9 at the sample window inside `a/` with the row of `d.txt` selected and
the destination `file:///tmp/out`. -/
theorem C9_extract_dispatch_witness :
    "file:///tmp/out" ≠ "" ∧ selectedFiles Sample.inDirA ≠ [] ∧
    (on_actionExtract_triggered Sample.inDirA "file:///tmp/out").engineCalls =
      Sample.inDirA.engineCalls ++
        [EngineCall.extractFiles (selectedFiles Sample.inDirA) "file:///tmp/out"
          Sample.inDirA.currentDirPath_] :=
  ⟨by decide, by decide,
    (C9_extract_dispatch Sample.inDirA "file:///tmp/out").2.2.1 (by decide) (by decide)⟩

/-- A listing that finishes with an error still rebuilds the models: in the
sample window, after an invalidation, the file list is installed again. -/
theorem listing_error_still_rebuilds :
    (onInvalidateContent Sample.inDirA).fileListModel = none ∧
    (onActionFinished Sample.archiver (onInvalidateContent Sample.inDirA)
      FrAction.FR_ACTION_LISTING_CONTENT ⟨true, "bad header"⟩).map
        (fun w => w.fileListModel.isSome) = some true := by
  decide

/-- The handler `onInvalidateContent` leaves the directory-tree model as it
is. -/
theorem onInvalidateContent_dirTreeModel (w : MainWindow) :
    (onInvalidateContent w).dirTreeModel = w.dirTreeModel := rfl

/-- C11. After `onInvalidateContent`, `currentDirItem_` is null and the proxy
has no source model, but the directory-tree model is untouched: in the sample
window its rows still carry the pointers to the root, `a/` and `a/b/`. -/
theorem C11_invalidate_keeps_tree_pointers :
    (onInvalidateContent Sample.atRoot).currentDirItem_ = none ∧
    (onInvalidateContent Sample.atRoot).fileListModel = none ∧
    (onInvalidateContent Sample.atRoot).dirTreeModel = Sample.atRoot.dirTreeModel ∧
    storedItems (onInvalidateContent Sample.atRoot) =
      [Sample.root, Sample.dirA, Sample.dirB] :=
  ⟨rfl, rfl, rfl, by decide⟩

/-- With a null tree root, a finish event of a content-listing kind does not
complete: `updateDirTree` dereferences the null `model->item(0, 0)`. -/
theorem onActionFinished_null_root (a : Archiver) (w : MainWindow) (action : FrAction)
    (err : ArchiverError)
    (hkind : action = FrAction.FR_ACTION_LISTING_CONTENT ∨
      action = FrAction.FR_ACTION_CREATING_ARCHIVE ∨
      action = FrAction.FR_ACTION_CREATING_NEW_ARCHIVE)
    (hroot : a.dirTreeRoot = none) :
    updateDirTree a w = none ∧ onActionFinished a w action err = none := by
  have hu : ∀ w1, updateDirTree a w1 = none := by
    intro w1
    unfold updateDirTree buildDirTree
    rw [hroot]
  refine ⟨hu w, ?_⟩
  have hsw : finishedSwitch a { setBusyState a w false with progressBarVisible := false }
      action err = none := by
    rcases hkind with h | h | h <;> subst h <;>
      simp only [finishedSwitch, contentListed, hu]
  unfold onActionFinished
  simp only [hsw]

/-- C12. With an engine that reports no tree root, the finish event of a
listing does not complete: `updateDirTree` builds an empty tree model and then
dereferences its missing first item, although `buildDirTree` and
`showCurrentDirList` both guard against a null root. -/
theorem C12_null_root_dereferenced :
    Sample.rootlessArchiver.dirTreeRoot = none ∧
    buildDirTree [] Sample.rootlessArchiver.dirTreeRoot = [] ∧
    showCurrentDirList Sample.rootlessArchiver (init Sample.rootlessArchiver true)
      = init Sample.rootlessArchiver true ∧
    updateDirTree Sample.rootlessArchiver (init Sample.rootlessArchiver true) = none ∧
    onActionFinished Sample.rootlessArchiver (init Sample.rootlessArchiver true)
      FrAction.FR_ACTION_LISTING_CONTENT ⟨false, ""⟩ = none :=
  ⟨rfl, rfl, rfl, rfl, rfl⟩

/-- The local `baseDir` computed by the extract handler is never empty and
always ends with '/'. -/
theorem extractBaseDir_ends_with_slash (path : String) :
    extractBaseDir path ≠ "" ∧ (extractBaseDir path).back = '/' := by
  unfold extractBaseDir
  by_cases h : (path.isEmpty || decide (path.back ≠ '/')) = true
  · rw [if_pos h]
    constructor
    · intro hp
      have hd := congrArg String.data hp
      simp [String.push] at hd
    · rw [String.back_eq]
      simp [String.push]
  · rw [if_neg h]
    simp only [Bool.or_eq_true, decide_eq_true_eq, not_or, Bool.not_eq_true,
      Decidable.not_not] at h
    refine ⟨?_, h.2⟩
    intro hp
    have := (String.isEmpty_iff path).2 hp
    rw [h.1] at this
    cases this

/-- C15. At the root of the sample archive (`currentDirPath_` is empty) with
the row of `e.txt` selected, the extract handler passes the empty string as
base directory to `extractFiles`, although it has just computed "/" as the
local `baseDir`. -/
theorem C15_extract_passes_unslashed_path :
    Sample.atRootSelected.currentDirPath_ = "" ∧
    selectedFiles Sample.atRootSelected = [⟨"/e.txt"⟩] ∧
    extractBaseDir Sample.atRootSelected.currentDirPath_ = "/" ∧
    (on_actionExtract_triggered Sample.atRootSelected "file:///tmp/out").engineCalls =
      [EngineCall.extractFiles [⟨"/e.txt"⟩] "file:///tmp/out" ""] := by
  decide

/-- The handler `setViewMode` leaves the current directory and its path as
they are. -/
theorem setViewMode_nav (a : Archiver) (w : MainWindow) (m : ViewMode) :
    (setViewMode a w m).currentDirItem_ = w.currentDirItem_ ∧
    (setViewMode a w m).currentDirPath_ = w.currentDirPath_ := by
  unfold setViewMode
  by_cases h : w.viewMode_ ≠ m
  · rw [if_pos h]
    cases m with
    | DirTree =>
      obtain ⟨-, f2, f3, -⟩ := showCurrentDirList_frame a
        { w with viewMode_ := ViewMode.DirTree, dirTreeVisible := w.actionDirTreeChecked }
      exact ⟨f2, f3⟩
    | FlatList =>
      obtain ⟨-, f2, f3, -⟩ := showFlatFileList_frame a
        { w with viewMode_ := ViewMode.FlatList, dirTreeVisible := false }
      exact ⟨f2, f3⟩
  · rw [if_neg h]
    exact ⟨rfl, rfl⟩

/-- Whenever the content-listed branch completes, the current directory is a
node and the current path is its full path. -/
theorem contentListed_nav (a : Archiver) (w w2 : MainWindow)
    (h : contentListed a w = some w2) :
    ∃ d, w2.currentDirItem_ = some d ∧ w2.currentDirPath_ = d.fullPath := by
  unfold contentListed at h
  cases hu : updateDirTree a w with
  | none => simp [hu] at h
  | some u =>
    simp only [hu] at h
    have key : ∀ cur : Option ArchiverItem,
        chdir a { u with currentDirItem_ := cur } cur = some w2 →
        ∃ d, w2.currentDirItem_ = some d ∧ w2.currentDirPath_ = d.fullPath := by
      intro cur hc
      cases cur with
      | none => simp [chdir] at hc
      | some d =>
        obtain ⟨w3, h3, hi, hp, -⟩ := chdir_some a { u with currentDirItem_ := some d } d
        rw [h3] at hc
        cases hc
        exact ⟨d, hi, hp⟩
    exact key _ h

/-- The switch of `onActionFinished` either runs the content-listed branch or
leaves the current directory and its path as they are. -/
theorem finishedSwitch_nav (a : Archiver) (w w2 : MainWindow) (action : FrAction)
    (err : ArchiverError) (h : finishedSwitch a w action err = some w2) :
    contentListed a w = some w2 ∨
      (w2.currentDirItem_ = w.currentDirItem_ ∧ w2.currentDirPath_ = w.currentDirPath_) := by
  cases action
  case FR_ACTION_LISTING_CONTENT => exact Or.inl h
  case FR_ACTION_CREATING_ARCHIVE => exact Or.inl h
  case FR_ACTION_CREATING_NEW_ARCHIVE => exact Or.inl h
  case FR_ACTION_TESTING_ARCHIVE =>
    right
    simp only [finishedSwitch] at h
    split at h <;> cases h <;> exact ⟨rfl, rfl⟩
  all_goals
    right
    simp only [finishedSwitch] at h
    cases h
    exact ⟨rfl, rfl⟩

/-- The consistency of the navigation state: a non-null `currentDirItem_` has
`currentDirPath_` as its full path. -/
theorem step_keeps_consistency (w w2 : MainWindow) (e : NavEvent)
    (hinv : ∀ d, w.currentDirItem_ = some d → w.currentDirPath_ = d.fullPath)
    (h : step w e = some w2) :
    ∀ d, w2.currentDirItem_ = some d → w2.currentDirPath_ = d.fullPath := by
  cases e with
  | chdirItem a dir =>
    obtain ⟨w3, h3, hi, hp, -⟩ := chdir_some a w dir
    simp only [step, h3] at h
    cases h
    intro d hd
    rw [hi] at hd
    cases hd
    exact hp
  | chdirPath a dirPath =>
    simp only [step, chdir_string] at h
    split at h
    · split at h
      · rename_i d hd
        obtain ⟨w3, h3, hi, hp, -⟩ := chdir_some a w d
        rw [h3] at h
        cases h
        intro d2 hd2
        rw [hi] at hd2
        cases hd2
        exact hp
      · cases h
        exact hinv
    · cases h
      exact hinv
  | setViewMode a viewMode =>
    simp only [step] at h
    cases h
    obtain ⟨f1, f2⟩ := setViewMode_nav a w viewMode
    intro d hd
    rw [f1] at hd
    rw [f2]
    exact hinv d hd
  | invalidateContent =>
    simp only [step] at h
    cases h
    intro d hd
    cases hd
  | actionFinished a action err =>
    simp only [step, onActionFinished] at h
    cases hs : finishedSwitch a { setBusyState a w false with progressBarVisible := false }
        action err with
    | none => simp [hs] at h
    | some w3 =>
      simp only [hs] at h
      cases h
      intro d hd
      rw [showError_currentDirItem] at hd
      rw [showError_currentDirPath]
      rcases finishedSwitch_nav a _ w3 action err hs with hc | ⟨f1, f2⟩
      · obtain ⟨d2, hi, hp⟩ := contentListed_nav a _ w3 hc
        rw [hi] at hd
        cases hd
        exact hp
      · rw [f1] at hd
        rw [f2]
        exact hinv d hd

/-- The consistency is kept along every sequence of events that completes. -/
theorem run_keeps_consistency : ∀ (events : List NavEvent) (w w2 : MainWindow),
    (∀ d, w.currentDirItem_ = some d → w.currentDirPath_ = d.fullPath) →
    run w events = some w2 →
    ∀ d, w2.currentDirItem_ = some d → w2.currentDirPath_ = d.fullPath
  | [], w, w2, hinv, h => by
    simp only [run] at h
    cases h
    exact hinv
  | e :: es, w, w2, hinv, h => by
    simp only [run] at h
    cases hs : step w e with
    | none => simp [hs] at h
    | some w3 =>
      simp only [hs] at h
      exact run_keeps_consistency es w3 w2 (step_keeps_consistency w w3 e hinv hs) h

/-- C18. In every window state reached from the initial state by a sequence
of `chdir(node)` with non-null nodes, `chdir(path)`, `setViewMode`,
`onInvalidateContent` and `onActionFinished`, a non-null `currentDirItem_` has
`currentDirPath_` as its full path; and `onInvalidateContent` and `setViewMode`
leave `currentDirPath_` as it is. -/
theorem C18_navigation_consistency (a0 : Archiver) (dirTreeChecked : Bool)
    (events : List NavEvent) (w : MainWindow)
    (hrun : run (init a0 dirTreeChecked) events = some w) :
    (∀ d, w.currentDirItem_ = some d → w.currentDirPath_ = d.fullPath) ∧
    (onInvalidateContent w).currentDirPath_ = w.currentDirPath_ ∧
    (∀ a m, (setViewMode a w m).currentDirPath_ = w.currentDirPath_) := by
  refine ⟨?_, rfl, fun a m => (setViewMode_nav a w m).2⟩
  refine run_keeps_consistency events (init a0 dirTreeChecked) w ?_ hrun
  intro d hd
  cases hd

/-- C18 at the end of the sample session, where the current directory is the
root of the reloaded archive. -/
theorem C18_navigation_consistency_witness :
    run (init Sample.archiver true) Sample.session = some Sample.afterSession ∧
    Sample.afterSession.currentDirItem_ = some Sample.rootAfterDelete ∧
    (∀ d, Sample.afterSession.currentDirItem_ = some d →
      Sample.afterSession.currentDirPath_ = d.fullPath) ∧
    (onInvalidateContent Sample.afterSession).currentDirPath_
      = Sample.afterSession.currentDirPath_ ∧
    (∀ a m, (setViewMode a Sample.afterSession m).currentDirPath_
      = Sample.afterSession.currentDirPath_) :=
  ⟨rfl, by decide, C18_navigation_consistency Sample.archiver true Sample.session
    Sample.afterSession rfl⟩

end MainWindow

/-! ## Properties of the command line entry point -/

/-- Whatever its outcome, the first block of `runApp` does nothing but open the
destination chooser. -/
theorem chooseExtractTo_effects (o : Options) (u : Answers) :
    match chooseExtractTo o u with
    | Except.error e1 => ∀ e ∈ e1, ∃ startUrl, e = AppEffect.directoryChooser startUrl
    | Except.ok (_, e1) => ∀ e ∈ e1, ∃ startUrl, e = AppEffect.directoryChooser startUrl := by
  unfold chooseExtractTo
  cases o.extract_to with
  | some dir => simp
  | none =>
    by_cases hx : (o.extract && !o.extract_here) = true
    · by_cases hu : u.extractDirUrl.isEmpty = true <;> simp [hx, hu]
    · simp [hx]

/-- C13. With remaining arguments on the command line, `runApp` returns 1 and
does nothing but show choosers (no archive is opened or created, no window is
shown) when (a) `--extract` is given without `--extract-to` and
`--extract-here` and the destination chooser returns an empty URL, or
(b) `--add` is given without `--add-to` and the archive chooser is rejected or
returns an empty URL. -/
theorem C13_exit_status_on_cancel (o : Options) (u : Answers) (args : List String)
    (hargs : o.remaining_args = some args)
    (hcase : (o.extract = true ∧ o.extract_to = none ∧ o.extract_here = false ∧
        u.extractDirUrl = "") ∨
      (o.add = true ∧ o.add_to = none ∧ (u.addAccepted = false ∨ u.addUrl = ""))) :
    (runApp o u).1 = 1 ∧
    ∀ e ∈ (runApp o u).2,
      (∃ startUrl, e = AppEffect.directoryChooser startUrl) ∨
      (∃ directoryUrl, e = AppEffect.archiveChooser directoryUrl) := by
  unfold runApp
  simp only [hargs]
  rcases hcase with ⟨hx, hto, hhere, hurl⟩ | ⟨ha, hto, hrej⟩
  · have h1 : chooseExtractTo o u = Except.error
        [AppEffect.directoryChooser
          (if o.default_url.isSome then "" else fromEncoded o.default_url)] := by
      simp [chooseExtractTo, hx, hto, hhere, hurl, MainWindow.isEmpty_eq_decide]
    rw [h1]
    refine ⟨rfl, ?_⟩
    intro e he
    simp only [List.mem_singleton] at he
    exact Or.inl ⟨_, he⟩
  · have h2 : chooseAddTo o u = Except.error [AppEffect.archiveChooser o.default_url] := by
      unfold chooseAddTo
      rcases hrej with hr | hr
      · simp [ha, hto, hr]
      · simp [ha, hto, hr, MainWindow.isEmpty_eq_decide]
    have h1 := chooseExtractTo_effects o u
    cases hc : chooseExtractTo o u with
    | error e1 =>
      rw [hc] at h1
      exact ⟨rfl, fun e he => Or.inl (h1 e he)⟩
    | ok r =>
      obtain ⟨uri, e1⟩ := r
      rw [hc] at h1
      rw [h2]
      refine ⟨rfl, ?_⟩
      intro e he
      rcases List.mem_append.mp he with h | h
      · exact Or.inl (h1 e h)
      · simp only [List.mem_singleton] at h
        exact Or.inr ⟨_, h⟩

/-- C13 at the command line `--extract --default-dir=... a.zip` with the
destination chooser cancelled. -/
theorem C13_exit_status_on_cancel_witness :
    (runApp Sample.extractAsk Sample.answers).1 = 1 ∧
    ∀ e ∈ (runApp Sample.extractAsk Sample.answers).2,
      (∃ startUrl, e = AppEffect.directoryChooser startUrl) ∨
      (∃ directoryUrl, e = AppEffect.archiveChooser directoryUrl) :=
  C13_exit_status_on_cancel Sample.extractAsk Sample.answers ["/home/u/a.zip"] rfl
    (Or.inl ⟨rfl, rfl, rfl, rfl⟩)

/-- C14. The extract-mode finish handler.  On a `FR_ACTION_LISTING_CONTENT`
event without error it asks for the password exactly when the archive is
encrypted and then makes exactly one extract call, as its last step:
`extractHere` when `--extract-here` is set and `extractAll` to the target URI
otherwise, with the entered password when one was asked for and is not empty,
and a null password otherwise.  On an event with an error, of whatever kind,
it neither asks nor extracts: it shows the error and rejects the dialog. -/
theorem C14_password_prompt (o : Options) (extract_to_uri : Option String)
    (isEncrypted : Bool) (entered : String) (action : FrAction) (err : ArchiverError) :
    (err.hasError = false →
      extractFinished o extract_to_uri isEncrypted entered
          FrAction.FR_ACTION_LISTING_CONTENT err =
        (if isEncrypted then [AppEffect.askPassword] else []) ++
          [if o.extract_here then
              AppEffect.extractHere
                (if isEncrypted = true ∧ entered ≠ "" then some entered else none)
            else
              AppEffect.extractAll extract_to_uri
                (if isEncrypted = true ∧ entered ≠ "" then some entered else none)] ∧
      (AppEffect.askPassword ∈ extractFinished o extract_to_uri isEncrypted entered
          FrAction.FR_ACTION_LISTING_CONTENT err ↔ isEncrypted = true)) ∧
    (err.hasError = true →
      extractFinished o extract_to_uri isEncrypted entered action err =
        [AppEffect.critical err.message, AppEffect.reject]) := by
  constructor
  · intro hok
    cases isEncrypted <;> cases hh : o.extract_here <;> by_cases he : entered = "" <;>
      simp [extractFinished, hok, hh, he, MainWindow.isEmpty_eq_decide]
  · intro herr
    simp [extractFinished, herr]

/-- C14 for an encrypted archive, the password "secret" and `--extract-to`. -/
theorem C14_password_prompt_witness :
    extractFinished Sample.extractTwo (some "file:///tmp/out") true "secret"
        FrAction.FR_ACTION_LISTING_CONTENT ⟨false, ""⟩ =
      [AppEffect.askPassword, AppEffect.extractAll (some "file:///tmp/out") (some "secret")] :=
  ((C14_password_prompt Sample.extractTwo (some "file:///tmp/out") true "secret"
    FrAction.FR_ACTION_LISTING_CONTENT ⟨false, ""⟩).1 rfl).1

/-- The loop of the extract branch only ever looks at its first argument. -/
theorem extractLoop_first_only (o : Options) (u : Answers) (extract_to_uri : Option String)
    (filename : String) (rest : List String) :
    extractLoop o u extract_to_uri (filename :: rest) =
      extractLoop o u extract_to_uri [filename] := rfl

/-- C16. For `--extract-to /tmp/out /home/u/a.zip /home/u/b.zip`, `runApp`
opens and extracts the first archive and returns 0; the second archive is
never opened. -/
theorem C16_only_first_archive_extracted :
    runApp Sample.extractTwo Sample.answers =
      (0, [AppEffect.openArchive "file:///home/u/a.zip",
        AppEffect.extractAll (some "file:///tmp/out") none, AppEffect.accept]) ∧
    AppEffect.openArchive "file:///home/u/b.zip" ∉ (runApp Sample.extractTwo Sample.answers).2 := by
  decide

/-- The destination chooser of `--extract` is always started with the empty
URL, whatever `--default-dir` says. -/
theorem extract_chooser_start_empty (o : Options) (u : Answers) (args : List String)
    (hargs : o.remaining_args = some args) (hx : o.extract = true)
    (hto : o.extract_to = none) (hhere : o.extract_here = false) :
    (runApp o u).2.head? = some (AppEffect.directoryChooser "") := by
  have hstart : (if o.default_url.isSome then "" else fromEncoded o.default_url) = "" := by
    cases o.default_url <;> rfl
  unfold runApp
  simp only [hargs]
  by_cases hu : u.extractDirUrl.isEmpty = true
  · have h1 : chooseExtractTo o u = Except.error [AppEffect.directoryChooser ""] := by
      simp [chooseExtractTo, hx, hto, hhere, hu, hstart]
    rw [h1]
    rfl
  · have h1 : chooseExtractTo o u =
        Except.ok (some u.extractDirUrl, [AppEffect.directoryChooser ""]) := by
      simp [chooseExtractTo, hx, hto, hhere, hu, hstart]
    rw [h1]
    simp only
    cases chooseAddTo o u with
    | error e2 => rfl
    | ok r =>
      obtain ⟨uri, e2⟩ := r
      simp only
      split
      · rfl
      · split
        · split <;> rfl
        · rfl

/-- C17. For `--extract --default-dir=file:///home/u /home/u/a.zip` the
destination chooser is started with the empty URL, not in `file:///home/u`,
while the archive chooser of `--add` is started in `file:///home/u`. -/
theorem C17_default_dir_not_used_for_extract :
    Sample.extractAsk.default_url = some "file:///home/u" ∧
    (runApp Sample.extractAsk Sample.answers).2 = [AppEffect.directoryChooser ""] ∧
    (runApp Sample.addAsk Sample.answers).2 =
      [AppEffect.archiveChooser (some "file:///home/u")] := by
  decide

end LxqtArchiver
